/-
  Verification of the HealthNews daily-posting pipeline.

  A shallow embedding of the Python sources:
    - `src/pipeline/matcher.py`        (lexical scorer, AI re-rank, product selection)
    - `src/pipeline/safety_filter.py`  (hard-block gate, AI classifier gates)
    - `src/pipeline/caption_writer.py` (caption generation and word-count enforcement)
    - `src/utils/logger.py`            (SQLite-backed history store)
    - `src/main.py`                    (scheduling decision core and run orchestrator)

  Modelling conventions:
    - Python `str` is modelled as `List Char` (`Str`); string literals are written
      `"...".toList`.  Python's `str.lower`/`str.strip`/`str.split` are modelled by
      `pyLower`/`pyStrip`/`pyWords`/`pySplitSub` below, which follow Python semantics
      (in particular no-argument `split()` drops empty fields, unlike Lean's
      `String.split`).
    - Python floats are modelled exactly: weights and thresholds are rationals, and the
      lexical score `raw / len(entry_tokens) ** 0.7` is kept in the exact form
      `Score.mk raw len` (denoting the real number `raw / len ^ (7/10)`).  All float
      comparisons performed by the code are decided exactly through tenth powers, which
      is order-equivalent because `x ↦ x ^ 10` is strictly monotone on nonnegatives.
    - External collaborators (the Novita chat completions, the Postly client, the CSV
      loaders and the RSS ingester) are an explicit environment `Env`; each call site
      is a field returning `Except Str α`, where `.error` models a raised exception
      propagating out of the call.  Code without a surrounding `try` propagates the
      `.error`; `try/except` blocks pattern-match on it.
    - The SQLite store is the explicit state `DB`; SQL `TEXT` timestamps stored in ISO
      format compare lexicographically exactly like the underlying instants, so times
      are modelled as rationals (minutes on the local clock) compared numerically.
    - Wall clocks (`datetime.now(...)`, `datetime.utcnow()`) are environment fields.
-/
import Mathlib

namespace HealthNews

/-- Python `str`, modelled as its sequence of characters. -/
abbrev Str := List Char

/-- Python `str.lower()` (the sources only ever lower ASCII text). -/
def pyLower (s : Str) : Str := s.map Char.toLower

/-- Python `str.strip()`: drop leading and trailing whitespace. -/
def pyStrip (s : Str) : Str :=
  ((s.dropWhile Char.isWhitespace).reverse.dropWhile Char.isWhitespace).reverse

/-- Python's substring test `needle in haystack` (contiguous occurrence). -/
def strContains (haystack needle : Str) : Bool :=
  match haystack with
  | [] => needle.isEmpty
  | _ :: rest => needle.isPrefixOf haystack || strContains rest needle

/-- Python `str.startswith(prefix)`. -/
def strStartsWith (s pre : Str) : Bool := pre.isPrefixOf s

/-- Accumulator loop of `pyWords`: `acc` holds the reversed current word. -/
def pyWordsAux : Str → Str → List Str
  | [], acc => if acc = [] then [] else [acc.reverse]
  | c :: cs, acc =>
    if c.isWhitespace then
      if acc = [] then pyWordsAux cs [] else acc.reverse :: pyWordsAux cs []
    else pyWordsAux cs (c :: acc)

/-- Python's no-argument `str.split()`: maximal runs of non-whitespace characters;
whitespace runs separate words and produce no empty fields. -/
def pyWords (s : Str) : List Str := pyWordsAux s []

/-- Python `len(text.split())`, the word counter `_count_words` of `caption_writer.py`. -/
def countWords (s : Str) : Nat := (pyWords s).length

/-- Python `" ".join(words)`. -/
def joinWords (ws : List Str) : Str := List.intercalate " ".toList ws

/-- Split `s` at the first occurrence of `sep`, returning the pieces before and after
it, or `none` when `sep` does not occur.  Helper for `pySplitSub`. -/
def breakOnSub (sep : Str) : Str → Option (Str × Str)
  | [] => if sep.isEmpty then some ([], []) else none
  | c :: rest =>
    if sep.isPrefixOf (c :: rest) then some ([], (c :: rest).drop sep.length)
    else match breakOnSub sep rest with
      | some (pre, post) => some (c :: pre, post)
      | none => none

/-- Fuel-bounded splitting loop of `pySplitSub`; each found separator strictly
shortens the remainder, so fuel `s.length + 1` always suffices. -/
def pySplitSubGo (sep : Str) : ℕ → Str → List Str
  | 0, s => [s]
  | fuel + 1, s =>
    match breakOnSub sep s with
    | none => [s]
    | some (pre, post) => pre :: pySplitSubGo sep fuel post

/-- Python `str.split(sep)` for a non-empty separator `sep` (the sources call it with
`"choice="`, `"score="`, `";"` and `"|"`).  Called with an empty separator Python
raises `ValueError`; the sources never do, and this model returns `[s]` there. -/
def pySplitSub (sep s : Str) : List Str :=
  if sep = [] then [s] else pySplitSubGo sep (s.length + 1) s

/-- Python `int(value)` on a string: optional surrounding whitespace, an optional
sign, then one or more ASCII digits; anything else raises `ValueError`, modelled as
`none`.  (Underscore digit grouping, accepted by CPython, never occurs in the
classifier replies this model is applied to and is not modelled.) -/
def pyParseInt (s : Str) : Option Int :=
  let t := pyStrip s
  let core : Option (Bool × Str) :=
    match t with
    | '-' :: rest => some (true, rest)
    | '+' :: rest => some (false, rest)
    | _ => some (false, t)
  match core with
  | some (neg, digits) =>
    if digits ≠ [] ∧ digits.all Char.isDigit then
      let n : Nat := digits.foldl (fun acc c => acc * 10 + (c.toNat - '0'.toNat)) 0
      some (if neg then -(n : Int) else (n : Int))
    else none
  | none => none

/-- An exact rational value of a Python float, as an unnormalized fraction
`num / den` with positive denominator.  Every float the pipeline manipulates
(field weights, thresholds, parsed classifier scores) originates from a short
decimal literal, which this represents exactly; the cross-multiplication
comparisons below realise the exact real-number order.  (IEEE-754 rounding of
decimal literals is not modelled: the decimal value itself is used.  No property
in this development sits within rounding distance of a comparison boundary.)
Kept unnormalized so that every operation is plain integer arithmetic, which the
kernel evaluates. -/
structure PyFloat where
  num : ℤ
  den : ℕ
deriving DecidableEq, Repr

/-- Comparison `a <= b` of exact float values (cross-multiplication; denominators
are positive by construction). -/
def PyFloat.le (a b : PyFloat) : Bool := decide (a.num * (b.den : ℤ) ≤ b.num * (a.den : ℤ))

/-- Comparison `a < b` of exact float values. -/
def PyFloat.lt (a b : PyFloat) : Bool := decide (a.num * (b.den : ℤ) < b.num * (a.den : ℤ))

/-- The float `0.0`. -/
def PyFloat.zero : PyFloat := ⟨0, 1⟩

/-- Exact float addition. -/
def PyFloat.add (a b : PyFloat) : PyFloat :=
  ⟨a.num * (b.den : ℤ) + b.num * (a.den : ℤ), a.den * b.den⟩

/-- Exact float multiplication. -/
def PyFloat.mul (a b : PyFloat) : PyFloat := ⟨a.num * b.num, a.den * b.den⟩

/-- Exact float power with a natural exponent. -/
def PyFloat.pow (a : PyFloat) (k : ℕ) : PyFloat := ⟨a.num ^ k, a.den ^ k⟩

/-- Python `max(a, b)`: the first argument when it is at least the second. -/
def PyFloat.pyMax (a b : PyFloat) : PyFloat := if PyFloat.le b a then a else b

/-- Python `float(value)` restricted to plain decimal notation
(`[ws][sign]digits[.digits][ws]`), the only shape the relevance classifier's
`SCORE=...` field takes; other accepted CPython spellings (exponents, `inf`, `nan`)
are modelled as `ValueError` (`none`).  The decimal value is represented exactly. -/
def pyParseFloat (s : Str) : Option PyFloat :=
  let t := pyStrip s
  let (neg, body) : Bool × Str :=
    match t with
    | '-' :: rest => (true, rest)
    | '+' :: rest => (false, rest)
    | _ => (false, t)
  let (intPart, rest) := (body.takeWhile Char.isDigit, body.dropWhile Char.isDigit)
  let fracPart : Option Str :=
    match rest with
    | [] => some []
    | '.' :: frac => if frac.all Char.isDigit then some frac else none
    | _ => none
  match fracPart with
  | none => none
  | some frac =>
    if intPart = [] ∧ frac = [] then none
    else
      let digitsVal (l : Str) : Nat :=
        l.foldl (fun acc c => acc * 10 + (c.toNat - '0'.toNat)) 0
      let mag : ℤ := (digitsVal intPart : ℤ) * (10 : ℤ) ^ frac.length + (digitsVal frac : ℤ)
      some ⟨if neg then -mag else mag, 10 ^ frac.length⟩

/-- Stable insertion into a descending-ordered list: `a` goes in front of the first
element `b` with `le b a`.  With a non-strict `le` this realises the same order as
Python's stable `sorted(..., reverse=True)`: among equal keys the earlier-inserted
(i.e. earlier-listed) element stays first. -/
def insertDesc (le : α → α → Bool) (a : α) : List α → List α
  | [] => [a]
  | b :: l => if le b a then a :: b :: l else b :: insertDesc le a l

/-- Stable descending sort (insertion sort), extensionally equal to CPython's stable
`sorted(xs, key=..., reverse=True)` for a total preorder key comparison. -/
def sortDescBy (le : α → α → Bool) : List α → List α
  | [] => []
  | a :: l => insertDesc le a (sortDescBy le l)

/-- The exact value of a lexical match score from `matcher.py`.  `score_product`
computes `raw / len(entry_tokens) ** 0.7`; a `Score` keeps the weighted-overlap sum
`raw` and the entry token count `len`, denoting the real number
`raw / len ^ (7/10)`.  The code's early `return 0.0` paths are represented as
`Score.zero` (value `0/1 = 0.0`).  All uses keep `len ≥ 1`. -/
structure Score where
  raw : PyFloat
  len : ℕ
deriving DecidableEq, Repr

/-- The float literal `0.0` as a `Score`. -/
def Score.zero : Score := ⟨PyFloat.zero, 1⟩

/-- Exact decision of `min_score ≤ raw / len ^ 0.7` (Python `score >= min_score`).
For nonnegative operands, comparing is equivalent to comparing tenth powers, which
clears the irrational exponent: `m ≤ raw / len^(7/10) ↔ m^10 * len^7 ≤ raw^10`. -/
def Score.geRat (s : Score) (m : PyFloat) : Bool :=
  if PyFloat.le PyFloat.zero s.raw then
    if PyFloat.le m PyFloat.zero then true
    else PyFloat.le (PyFloat.mul (PyFloat.pow m 10) ⟨(s.len : ℤ) ^ 7, 1⟩)
      (PyFloat.pow s.raw 10)
  else
    if PyFloat.lt PyFloat.zero m then false
    else PyFloat.le (PyFloat.pow s.raw 10)
      (PyFloat.mul (PyFloat.pow m 10) ⟨(s.len : ℤ) ^ 7, 1⟩)

/-- Exact decision of `m < raw / len ^ 0.7` (Python `score > m`, used for the
`item[1] > 0` candidate filter). -/
def Score.gtRat (s : Score) (m : PyFloat) : Bool :=
  if PyFloat.le PyFloat.zero s.raw then
    if PyFloat.lt m PyFloat.zero then true
    else if s.raw.num = 0 then false
    else PyFloat.lt (PyFloat.mul (PyFloat.pow m 10) ⟨(s.len : ℤ) ^ 7, 1⟩)
      (PyFloat.pow s.raw 10)
  else
    if PyFloat.le PyFloat.zero m then false
    else PyFloat.lt (PyFloat.pow s.raw 10)
      (PyFloat.mul (PyFloat.pow m 10) ⟨(s.len : ℤ) ^ 7, 1⟩)

/-- Python `best_score < min_score`: over the reals, `x < m` is exactly `¬ (m ≤ x)`. -/
def Score.ltRat (s : Score) (m : PyFloat) : Bool := !(s.geRat m)

/-- Exact decision of `val s ≤ val t` between two scores (the sort-key comparison of
`sorted(..., key=lambda item: item[1], reverse=True)`). -/
def Score.leScore (s t : Score) : Bool :=
  if PyFloat.lt PyFloat.zero s.raw then
    if PyFloat.le t.raw PyFloat.zero then false
    else PyFloat.le (PyFloat.mul (PyFloat.pow s.raw 10) ⟨(t.len : ℤ) ^ 7, 1⟩)
      (PyFloat.mul (PyFloat.pow t.raw 10) ⟨(s.len : ℤ) ^ 7, 1⟩)
  else
    if PyFloat.le PyFloat.zero t.raw then true
    else PyFloat.le (PyFloat.mul (PyFloat.pow t.raw 10) ⟨(s.len : ℤ) ^ 7, 1⟩)
      (PyFloat.mul (PyFloat.pow s.raw 10) ⟨(t.len : ℤ) ^ 7, 1⟩)

/-- Times (`datetime` values on the local clock and ISO-8601 renderings of them) are
modelled as integer microseconds — the resolution of a Python `datetime`.  ISO
strings of a fixed timezone compare lexicographically exactly like the instants
they denote, so SQL `TEXT` comparisons on them are modelled as numeric
comparisons. -/
abbrev Time := ℤ

/-- A normalized RSS entry, the dict built by `fetch_rss_entries` in
`rss_ingest.py`: keys `source`, `title`, `url`, `summary`, `published`.
`_process_entry` merges in the extra keys `brand_name` and `brand_tags`; on a plain
RSS entry those keys are absent, represented by `[]`, which is observationally
identical because every read of them uses default `""`. -/
structure Entry where
  source : Str := []
  title : Str := []
  url : Str := []
  summary : Str := []
  published : Option Time := none
  brandName : Str := []
  brandTags : Str := []
deriving DecidableEq, Repr

/-- Python `entry.get(key, dflt)` for the string-valued keys the pipeline reads.
An RSS entry dict has no `"article_url"` key (that is a column name of the
`article_history` table), so that lookup — performed by `_schedule_for_brand` —
always falls through to the default. -/
def Entry.get (e : Entry) (key : Str) (dflt : Str) : Str :=
  if key = "source".toList then e.source
  else if key = "title".toList then e.title
  else if key = "url".toList then e.url
  else if key = "summary".toList then e.summary
  else if key = "brand_name".toList then e.brandName
  else if key = "brand_tags".toList then e.brandTags
  else dflt

/-- A product record, the dict built by `load_products_from_csv` in
`apherb_catalog.py` (the CSV column `key_ingredients` is stored under the dict key
`"ingredients"`; there is no `"key_ingredients"` key in the dict). -/
structure Product where
  productName : Str := []
  productUrl : Str := []
  productImageUrl : Str := []
  imagePath : Str := []
  imageStatus : Str := []
  description : Str := []
  ingredients : Str := []
  mainBenefit : Str := []
  category : Str := []
  subCategory : Str := []
  tags : Str := []
  priority : Str := []
deriving DecidableEq, Repr

/-- Python `product.get(key, "")` for the keys the pipeline reads.  Note that
`caption_writer.py` reads `product.get("key_ingredients", "")`, a key the loader
never sets, so it yields the default. -/
def Product.get (p : Product) (key : Str) : Str :=
  if key = "product_name".toList then p.productName
  else if key = "product_url".toList then p.productUrl
  else if key = "product_image_url".toList then p.productImageUrl
  else if key = "description".toList then p.description
  else if key = "ingredients".toList then p.ingredients
  else if key = "main_benefit".toList then p.mainBenefit
  else if key = "category".toList then p.category
  else if key = "sub_category".toList then p.subCategory
  else if key = "tags".toList then p.tags
  else if key = "priority".toList then p.priority
  else []

/-- A brand record, the dict built by `load_brands_from_csv` in `apherb_catalog.py`
(all keys always present, `brand_name` nonempty). -/
structure Brand where
  brandName : Str := []
  productInfoCsvPath : Str := []
  targetPlatforms : Str := []
  workspaceIds : Str := []
  rssSources : Str := []
  tags : Str := []
deriving DecidableEq, Repr

/-- The configuration surface of `utils/config.py` (the fields the decision core
reads).  Thresholds and floats are exact rationals. -/
structure Settings where
  rssSources : List Str := []
  novitaApiKey : Str := []
  postlyApiKey : Str := []
  postlyBaseUrl : Str := []
  postlyWorkspaceIds : Str := []
  scheduleHour : ℕ := 5
  scheduleMinute : ℕ := 0
  captionMinWords : ℕ := 100
  captionMaxWords : ℕ := 150
  hardBlockTopics : List Str :=
    ["pregnancy".toList, "children".toList, "cancer".toList, "diabetes".toList,
     "mental health".toList, "sexual health".toList]
  productInfoCsvPath : Str := []
  brandsCsvPath : Str := []
  relevanceThreshold : PyFloat := ⟨4, 10⟩
  productMatchThreshold : PyFloat := ⟨1, 10⟩
  useAiRerank : Bool := true
  aiRerankTopN : ℕ := 5
  avoidRepeatProduct : Bool := true
  avoidRepeatProductCount : ℕ := 2

/-- The external collaborators: each field models one call site that performs
blocking I/O.  A `.error msg` result models the call raising an exception whose
`str(exc)` is `msg`; code not wrapped in `try` propagates it.  Chat-completion call
sites receive the data their prompt is built from and return the reply content. -/
structure Env where
  /-- Call site `client.chat.completions.create` in `_ai_rerank` (prompt built from the entry
  and the top candidates); returns the reply content. -/
  rerankChat : Entry → List (Product × Score) → Except Str Str
  /-- Call site `client.chat.completions.create` in `ai_hardblock_check` (prompt built from the
  combined entry text). -/
  hardblockChat : Str → Except Str Str
  /-- Call site `client.chat.completions.create` in `ai_product_relevance_check` (prompt built
  from the combined entry text and up to 30 product summaries). -/
  relevanceChat : Str → List Product → Except Str Str
  /-- Call site `client.chat.completions.create` in `generate_caption`. -/
  captionChat : Entry → Product → Except Str Str
  /-- Call site `create_post` in `postly_client.py`:
  (base_url, api_key, caption, image_url, scheduled_iso, target_platforms,
  workspace_ids); raises on a non-2xx response. -/
  createPost : Str → Str → Str → Str → Time → Str → Str → Except Str Unit
  /-- Collaborator `load_brands_from_csv`. -/
  loadBrands : Str → List Brand
  /-- Collaborator `load_products_from_csv`. -/
  loadProducts : Str → List Product
  /-- Collaborator `ingest_rss`: deduplicated newest-first entries for the given sources. -/
  ingestRss : List Str → List Entry
  /-- Clock `_local_now()`: the current local time. -/
  now : Time
  /-- Clock `datetime.utcnow()`, used only for stored timestamps. -/
  utcNow : Time

/-! ## `pipeline/matcher.py` -/

/-- The stop-word set `NOISE_TOKENS` of `matcher.py`. -/
def NOISE_TOKENS : List Str :=
  ["health", "healthy", "wellness", "wellbeing", "study", "studies",
   "research", "researchers", "suggest", "suggests", "show", "shows",
   "may", "might", "could", "help", "support", "benefit", "important",
   "system", "body", "function", "functions", "natural", "daily",
   "overall", "including", "based", "used", "using"].map String.toList

/-- Accumulator loop of `alphaRuns`: `acc` holds the reversed current letter run. -/
def alphaRunsAux : Str → Str → List Str
  | [], acc => if acc = [] then [] else [acc.reverse]
  | c :: cs, acc =>
    if c.isAlpha then alphaRunsAux cs (c :: acc)
    else if acc = [] then alphaRunsAux cs []
    else acc.reverse :: alphaRunsAux cs []

/-- Maximal runs of ASCII letters (`Char.isAlpha` accepts exactly `[a-zA-Z]`),
so that `re.findall(r"[a-zA-Z]{3,}", text)` equals the runs of length at least 3. -/
def alphaRuns (s : Str) : List Str := alphaRunsAux s []

/-- Tokenizer `_tokenize` of `matcher.py`: `re.findall(r"[a-zA-Z]{3,}", text.lower())`
filtered against `NOISE_TOKENS`. -/
def pyTokenize (text : Str) : List Str :=
  let tokens := (alphaRuns (pyLower text)).filter fun t => 3 ≤ t.length
  tokens.filter fun token => !NOISE_TOKENS.contains token

/-- Weight table `FIELD_WEIGHTS` of `matcher.py`, in dict insertion order
(3.0, 2.0, 2.5, 2.0, 1.0). -/
def FIELD_WEIGHTS : List (Str × PyFloat) :=
  [("product_name".toList, ⟨3, 1⟩), ("category".toList, ⟨2, 1⟩),
   ("main_benefit".toList, ⟨5, 2⟩), ("ingredients".toList, ⟨2, 1⟩),
   ("description".toList, ⟨1, 1⟩)]

/-- Python `weights.get(token, 0)` on an association-list model of a dict. -/
def dictGetQ (d : List (Str × PyFloat)) (k : Str) (dflt : PyFloat) : PyFloat :=
  match d.find? (fun kv => decide (kv.1 = k)) with
  | some kv => kv.2
  | none => dflt

/-- Python membership test `token in weights` on the dict model. -/
def dictHas (d : List (Str × PyFloat)) (k : Str) : Bool := d.any fun kv => decide (kv.1 = k)

/-- Python dict assignment `weights[token] = v`: updating an existing key keeps its
position, a new key is appended (insertion order). -/
def dictSet (d : List (Str × PyFloat)) (k : Str) (v : PyFloat) : List (Str × PyFloat) :=
  if dictHas d k then d.map (fun kv => if kv.1 = k then (k, v) else kv) else d ++ [(k, v)]

/-- Map `_weighted_product_tokens` of `matcher.py`: for each weighted field, each of
its tokens gets the max weight across the fields it appears in. -/
def weightedProductTokens (product : Product) : List (Str × PyFloat) :=
  FIELD_WEIGHTS.foldl
    (fun weights fw =>
      (pyTokenize (product.get fw.1)).foldl
        (fun w token =>
          dictSet w token (PyFloat.pyMax (dictGetQ w token PyFloat.zero) fw.2)) weights)
    []

/-- Scorer `score_product` of `matcher.py`.  `set(...)` is modelled by `dedup`
(iteration order of a Python set is unspecified, and both the rational sum and the
cardinality are order-independent).  The two `return 0.0` edge paths are
`Score.zero`. -/
def score_product (entry : Entry) (product : Product) : Score :=
  let entry_tokens :=
    (pyTokenize (entry.get "title".toList [] ++ " ".toList ++ entry.get "summary".toList [])).dedup
  if entry_tokens = [] then Score.zero
  else
    let product_weights := weightedProductTokens product
    if product_weights = [] then Score.zero
    else
      let score := entry_tokens.foldl
        (fun acc token =>
          if dictHas product_weights token then
            PyFloat.add acc (dictGetQ product_weights token PyFloat.zero)
          else acc) PyFloat.zero
      ⟨score, entry_tokens.length⟩

/-- Ranking `_rank_by_keywords` of `matcher.py`: all products with their scores,
stably sorted by score descending. -/
def rank_by_keywords (entry : Entry) (products : List Product) :
    List (Product × Score) :=
  let scored := products.map fun product => (product, score_product entry product)
  sortDescBy (fun a b => Score.leScore a.2 b.2) scored

/-- Re-ranker `_ai_rerank` of `matcher.py`.  The pair `({}, 0.0)` returned by the
code (empty dict, zero score) is modelled as `(none, Score.zero)`.  The reply parse
`content.split("choice=")[1].split()[0]` raises `IndexError` when the piece after
the first `choice=` has no word before the next occurrence; that uncaught raise is
modelled as `.error "IndexError"`. -/
def ai_rerank (env : Env) (settings : Settings) (entry : Entry)
    (candidates : List (Product × Score)) : Except Str (Option Product × Score) := do
  if settings.novitaApiKey = [] then
    return (none, Score.zero)
  let reply ← env.rerankChat entry candidates
  let content := pyLower (pyStrip reply)
  if strContains content "choice=none".toList then
    return (none, Score.zero)
  if strContains content "choice=".toList then
    let piece := ((pySplitSub "choice=".toList content).drop 1).headD []
    match (pyWords piece).head? with
    | none => throw "IndexError".toList
    | some w =>
      let value := pyStrip w
      match pyParseInt value with
      | none => return (none, Score.zero)
      | some index =>
        if 1 ≤ index ∧ index ≤ candidates.length then
          match candidates.get? (index - 1).toNat with
          | some chosen => return (some chosen.1, chosen.2)
          | none => return (none, Score.zero)
        else
          return (none, Score.zero)
  else
    return (none, Score.zero)

/-- Selector `select_best_product` of `matcher.py`.  Python's truthiness test
`if not ranked` is emptiness; `if product` on the re-ranker's dict is `Option.isSome`
in this model. -/
def select_best_product (env : Env) (settings : Settings) (entry : Entry)
    (products : List Product) (min_score : PyFloat) :
    Except Str (Option Product × Score) := do
  let ranked := rank_by_keywords entry products
  match ranked with
  | [] => return (none, Score.zero)
  | best :: _ =>
    let top_ranked := (ranked.filter fun item => item.2.gtRat PyFloat.zero).take settings.aiRerankTopN
    if settings.useAiRerank ∧ top_ranked ≠ [] then
      let (product, score) ← ai_rerank env settings entry top_ranked
      if product.isSome ∧ score.geRat min_score then
        return (product, score)
      else
        return (none, score)
    else
      let (best_product, best_score) := best
      if best_score.ltRat min_score then
        return (none, best_score)
      else
        return (some best_product, best_score)

/-! ## `pipeline/safety_filter.py` -/

/-- Gate `hard_block_check`: scan the configured topics in order and reject on the
first one occurring in the lowercased text. -/
def hard_block_check (settings : Settings) (text : Str) : Bool × Str :=
  let lowered := pyLower text
  go lowered settings.hardBlockTopics
where
  /-- Loop `for topic in SETTINGS.hard_block_topics`. -/
  go (lowered : Str) : List Str → Bool × Str
    | [] => (true, [])
    | topic :: rest =>
      if strContains lowered topic then
        (false, "Hard-blocked topic detected: ".toList ++ topic)
      else go lowered rest

/-- Gate `ai_hardblock_check`: fail closed without credentials, otherwise ask the
classifier (the call may raise) and reject when the reply starts with
`hardblock=yes` (case-insensitively). -/
def ai_hardblock_check (env : Env) (settings : Settings) (text : Str) :
    Except Str (Bool × Str) := do
  if settings.novitaApiKey = [] then
    return (false, "Missing NOVITA_API_KEY for AI hard-block check".toList)
  let reply ← env.hardblockChat text
  let content := pyStrip reply
  if strStartsWith (pyLower content) "hardblock=yes".toList then
    return (false, content)
  return (true, [])

/-- Gate `ai_product_relevance_check`: fail closed without credentials, otherwise ask
the classifier about the first 30 products; parse `SCORE=` out of the lowercased
reply (`float` parse errors degrade to 0.0) and pass only a `related=yes` reply with
score at least the configured threshold. -/
def ai_product_relevance_check (env : Env) (settings : Settings) (text : Str)
    (products : List Product) : Except Str (Bool × Str × PyFloat) := do
  if settings.novitaApiKey = [] then
    return (false, "Missing NOVITA_API_KEY for AI relevance check".toList, PyFloat.zero)
  let reply ← env.relevanceChat text (products.take 30)
  let content := pyStrip reply
  let lowered := pyLower content
  let score : PyFloat :=
    if strContains lowered "score=".toList then
      let piece := ((pySplitSub "score=".toList lowered).drop 1).headD []
      let score_str := pyStrip ((pySplitSub ";".toList piece).headD [])
      match pyParseFloat score_str with
      | some q => q
      | none => PyFloat.zero
    else PyFloat.zero
  if strStartsWith lowered "related=yes".toList ∧
      PyFloat.le settings.relevanceThreshold score = true then
    return (true, [], score)
  return (false, content, score)

/-- Filter `safety_filter`: the three gates in sequence, short-circuiting on the
first failure; classifier raises propagate (no `try` in `safety_filter` or its
callers up to `run_daily`). -/
def safety_filter (env : Env) (settings : Settings) (entry : Entry)
    (products : List Product) : Except Str (Bool × Str) := do
  let combined := entry.get "title".toList [] ++ " ".toList ++ entry.get "summary".toList []
  let (ok₁, reason₁) := hard_block_check settings combined
  if !ok₁ then
    return (false, reason₁)
  let (ok₂, reason₂) ← ai_hardblock_check env settings combined
  if !ok₂ then
    return (false, reason₂)
  let (ok₃, reason₃, _score) ← ai_product_relevance_check env settings combined products
  if !ok₃ then
    return (false, reason₃)
  return (true, [])

/-! ## `pipeline/caption_writer.py` -/

/-- The fixed filler sentence appended by `generate_caption` when the caption is
short (note the leading space of `caption += " This content ..."`). -/
def fillerSentence : Str := " This content is shared for educational purposes only.".toList

/-- Writer `generate_caption`: ask the LLM (the call may raise), append missing
brand/product/extra hashtags, then enforce the word-count window: below
`caption_min_words` append `fillerSentence`, above `caption_max_words` truncate to
the first `caption_max_words` words.  `lower_caption` is computed once before the
tag loop, exactly as in the source. -/
def generate_caption (env : Env) (settings : Settings) (entry : Entry)
    (product : Product) : Except Str Str := do
  let reply ← env.captionChat entry product
  let caption := pyStrip reply
  let brand_tag := pyStrip (entry.get "brand_name".toList [])
  let product_tag := pyStrip (product.get "product_name".toList)
  let brand_tags_raw := pyStrip (entry.get "brand_tags".toList [])
  let extra_tags : List Str :=
    (if brand_tag ≠ [] then [['#'] ++ (pyWords brand_tag).flatten] else []) ++
    (if product_tag ≠ [] then [['#'] ++ (pyWords product_tag).flatten] else []) ++
    (if brand_tags_raw ≠ [] then
      (pySplitSub "|".toList brand_tags_raw).filterMap fun tag =>
        let cleaned := pyStrip tag
        if cleaned ≠ [] then some (['#'] ++ (pyWords cleaned).flatten) else none
    else [])
  let caption :=
    if extra_tags ≠ [] then
      let lower_caption := pyLower caption
      extra_tags.foldl
        (fun caption tag =>
          if !strContains lower_caption (pyLower tag) then
            pyStrip (caption ++ " ".toList ++ tag)
          else caption)
        caption
    else caption
  let word_count := countWords caption
  if word_count < settings.captionMinWords then
    return caption ++ fillerSentence
  else if word_count > settings.captionMaxWords then
    return joinWords ((pyWords caption).take settings.captionMaxWords)
  else
    return caption

/-! ## `utils/logger.py`: the SQLite store -/

/-- Row of the `logs` table. -/
structure LogRecord where
  timestamp : Time
  rssSource : Str
  articleTitle : Str
  articleUrl : Str
  productName : Str
  productUrl : Str
  productImageUrl : Str
  caption : Str
  status : Str
  reason : Str
deriving DecidableEq, Repr

/-- Row of the `article_history` table (`UNIQUE(brand_name, article_title,
article_url)`). -/
structure ArticleRecord where
  brandName : Str
  articleTitle : Str
  articleUrl : Str
  checkedAt : Time
  status : Str
  reason : Str
deriving DecidableEq, Repr

/-- Row of the `post_log` table.  The `productName` field mirrors the payload key
`product_name` that `main.py` puts in every post payload; the src `INSERT` in
`log_scheduled_post` drops it (the table has no such column), but the absent-from-src
`get_last_products` (spec §3/§4.4: the post log "is used to derive 'last N products
posted for brand'") requires it, so the model keeps it on the row. -/
structure PostRecord where
  brandName : Str
  productName : Str
  articleTitle : Str
  articleUrl : Str
  imageUrl : Str
  caption : Str
  scheduledTime : Option Time
  postedTime : Option Time
  status : Str
deriving DecidableEq, Repr

/-- Row of the `brands` topic-cache table (`brand_name UNIQUE`). -/
structure BrandTopicsRecord where
  brandName : Str
  topics : Str
  productCategories : Str
  productSubcategories : Str
  productTags : Str
  updatedAt : Time
deriving DecidableEq, Repr

/-- The SQLite database of `utils/logger.py`: four tables, insertion-ordered. -/
structure DB where
  logs : List LogRecord := []
  brands : List BrandTopicsRecord := []
  articleHistory : List ArticleRecord := []
  postLog : List PostRecord := []
deriving DecidableEq, Repr

/-- Query `article_seen`: `False` outright when the brand name or title is falsy,
otherwise an existence check on the `(brand_name, article_title, article_url)` key. -/
def article_seen (db : DB) (brand_name article_title article_url : Str) : Bool :=
  if brand_name = [] ∨ article_title = [] then false
  else db.articleHistory.any fun r =>
    r.brandName = brand_name ∧ r.articleTitle = article_title ∧ r.articleUrl = article_url

/-- Upsert `record_article_check`: a no-op when the brand name or title is falsy;
otherwise `INSERT ... ON CONFLICT(brand_name, article_title, article_url) DO UPDATE`
— an existing row keeps its position and gets the new `checked_at`/`status`/`reason`,
a new key is appended. -/
def record_article_check (db : DB) (brand_name article_title article_url : Str)
    (status reason : Str) (checked_at : Time) : DB :=
  if brand_name = [] ∨ article_title = [] then db
  else if db.articleHistory.any (fun r =>
      r.brandName = brand_name ∧ r.articleTitle = article_title ∧
        r.articleUrl = article_url) then
    { db with articleHistory := db.articleHistory.map fun r =>
        if r.brandName = brand_name ∧ r.articleTitle = article_title ∧
            r.articleUrl = article_url then
          { r with checkedAt := checked_at, status := status, reason := reason }
        else r }
  else
    { db with articleHistory := db.articleHistory ++
        [⟨brand_name, article_title, article_url, checked_at, status, reason⟩] }

/-- Insert `log_scheduled_post`: append a post-log row (see `PostRecord` on the
`productName` field). -/
def log_scheduled_post (db : DB) (r : PostRecord) : DB :=
  { db with postLog := db.postLog ++ [r] }

/-- Insert `log_posted_post`: default a falsy status to `"posted"`, then append. -/
def log_posted_post (db : DB) (r : PostRecord) : DB :=
  log_scheduled_post db
    { r with status := if r.status = [] then "posted".toList else r.status }

/-- Query `has_posted_today`: a `post_log` row for the brand with status `posted`
and `day_start <= posted_time < day_end`.  SQL compares the ISO `TEXT` timestamps
lexicographically, which for this fixed format is the numeric order; a `NULL`
`posted_time` satisfies neither comparison. -/
def has_posted_today (db : DB) (brand_name : Str) (day_start day_end : Time) : Bool :=
  db.postLog.any fun r =>
    decide (r.brandName = brand_name) && decide (r.status = "posted".toList) &&
      (match r.postedTime with
       | some t => decide (day_start ≤ t ∧ t < day_end)
       | none => false)

/-- Query `has_scheduled_between`: same shape on status `scheduled` and
`scheduled_time`. -/
def has_scheduled_between (db : DB) (brand_name : Str) (day_start day_end : Time) : Bool :=
  db.postLog.any fun r =>
    decide (r.brandName = brand_name) && decide (r.status = "scheduled".toList) &&
      (match r.scheduledTime with
       | some t => decide (day_start ≤ t ∧ t < day_end)
       | none => false)

/-- Insert `log_event`: append a row to `logs`. -/
def log_event (db : DB) (r : LogRecord) : DB :=
  { db with logs := db.logs ++ [r] }

/-- Upsert `upsert_brand_topics`: `ON CONFLICT(brand_name) DO UPDATE`. -/
def upsert_brand_topics (db : DB) (p : BrandTopicsRecord) : DB :=
  if db.brands.any (fun r => r.brandName = p.brandName) then
    { db with brands := db.brands.map fun r =>
        if r.brandName = p.brandName then
          { r with
            topics := p.topics
            productCategories := p.productCategories
            productSubcategories := p.productSubcategories
            productTags := p.productTags
            updatedAt := p.updatedAt }
        else r }
  else
    { db with brands := db.brands ++ [p] }

/-- Python `product.get(key, "")` on an optional product, where `none` models the
literal empty dict `{}` the pipeline passes for "no product". -/
def optProductGet (p : Option Product) (key : Str) : Str :=
  match p with
  | some p => p.get key
  | none => []

/-- Builder `build_log_payload`. -/
def build_log_payload (utc_now : Time) (entry : Entry) (product : Option Product)
    (caption status reason : Str) : LogRecord :=
  { timestamp := utc_now
    rssSource := entry.get "source".toList []
    articleTitle := entry.get "title".toList []
    articleUrl := entry.get "url".toList []
    productName := optProductGet product "product_name".toList
    productUrl := optProductGet product "product_url".toList
    productImageUrl := optProductGet product "product_image_url".toList
    caption := caption
    status := status
    reason := reason }

/-- Modelled from the spec: `get_last_products` is imported by `main.py` from
`utils.logger` but is not defined anywhere under `src/` (only this caller and a test
caller exist).  Spec §4.4 and §6 describe it as "the last K posted product names for
a brand (K configurable, default 2, ordered most-recent-first)" /
"query-last-N-product-names" against the post log: the latest inserted `post_log`
rows of the brand with status `posted`, newest first, mapped to product names,
truncated to `n`. -/
def get_last_products (db : DB) (brand_name : Str) (n : ℕ) : List Str :=
  (((db.postLog.filter fun r =>
      r.brandName = brand_name ∧ r.status = "posted".toList).reverse).map
    fun r => r.productName).take n

/-! ## `services/apherb_catalog.py`: the pure helpers the orchestrator calls -/

/-- Lexicographic code-point order on strings, Python's `str` comparison used by
`sorted`. -/
def strLe : Str → Str → Bool
  | [], _ => true
  | _ :: _, [] => false
  | a :: s, b :: t => if a = b then strLe s t else decide (a < b)

/-- Ascending insertion used by `sortAsc`. -/
def insertAsc (le : α → α → Bool) (a : α) : List α → List α
  | [] => [a]
  | b :: l => if le a b then a :: b :: l else b :: insertAsc le a l

/-- Ascending insertion sort; on distinct elements (Python `sorted` over a `set`)
this is the unique ascending order. -/
def sortAscBy (le : α → α → Bool) : List α → List α
  | [] => []
  | a :: l => insertAsc le a (sortAscBy le l)

/-- Python `sorted({...})`: the distinct values in ascending order (the set's
iteration order is immaterial because the result is sorted). -/
def sortedSet (l : List Str) : List Str := sortAscBy strLe l.dedup

/-- Python `", ".join(l)`. -/
def joinCommaSpace (l : List Str) : Str := List.intercalate ", ".toList l

/-- The four joined-topic strings `derive_brand_topics` computes from a catalog. -/
structure TopicsPayload where
  topics : Str
  productCategories : Str
  productSubcategories : Str
  productTags : Str
deriving DecidableEq, Repr

/-- Helper `derive_brand_topics` of `apherb_catalog.py`. -/
def derive_brand_topics (products : List Product) : TopicsPayload :=
  let categories := sortedSet ((products.filter fun p =>
    p.get "category".toList ≠ []).map fun p => pyStrip (p.get "category".toList))
  let subcategories := sortedSet ((products.filter fun p =>
    p.get "sub_category".toList ≠ []).map fun p => pyStrip (p.get "sub_category".toList))
  let tags := sortedSet (products.flatMap fun p =>
    (pySplitSub ",".toList (p.get "tags".toList)).filterMap fun tag =>
      let cleaned := pyStrip tag
      if cleaned ≠ [] then some cleaned else none)
  let topics := sortedSet (categories ++ subcategories ++ tags)
  { topics := joinCommaSpace topics
    productCategories := joinCommaSpace categories
    productSubcategories := joinCommaSpace subcategories
    productTags := joinCommaSpace tags }

/-- Helper `_split_csv_list` / `parse_brand_rss_sources`: pipe-separated, stripped,
empties dropped. -/
def parse_brand_rss_sources (raw_sources : Str) : List Str :=
  (pySplitSub "|".toList raw_sources).filterMap fun item =>
    let s := pyStrip item
    if s ≠ [] then some s else none

/-! ## `main.py`: scheduling decision core and run orchestrator -/

/-- Microseconds per day, hour and minute (the time unit of this model). -/
def usPerDay : ℤ := 86400000000

/-- Microseconds per hour. -/
def usPerHour : ℤ := 3600000000

/-- Microseconds per minute. -/
def usPerMinute : ℤ := 60000000

/-- Helper `_day_bounds`: midnight of the day of `t` and midnight of the next day
(`local_dt.replace(hour=0, minute=0, second=0, microsecond=0)` and `+ 1 day`). -/
def day_bounds (t : Time) : Time × Time :=
  let start : Time := usPerDay * (t.fdiv usPerDay)
  (start, start + usPerDay)

/-- Helper `_schedule_time_for_day`: the configured `hour:minute` on the day of `t`
(`local_dt.replace(hour=h, minute=m, second=0, microsecond=0)`). -/
def schedule_time_for_day (settings : Settings) (t : Time) : Time :=
  (day_bounds t).1 + usPerHour * (settings.scheduleHour : ℤ) +
    usPerMinute * (settings.scheduleMinute : ℤ)

/-- Decimal rendering `f"{score:.2f}"` of a float score.  It occurs only inside
log/reason text and prompts; no code path branches on it, so its digits are
irrelevant to every property here and the model renders it as empty text rather
than reproducing IEEE-754 rounding of the irrational score value. -/
def format2f (_s : Score) : Str := []

/-- The literal empty dict `{}` that `run_daily` logs against (every `.get` on it
yields the default, exactly as `Entry.get` does on all-empty fields). -/
def emptyEntry : Entry := {}

/-- Helper `_log_and_continue`: append the payload to the `logs` table.  The
best-effort Google-Sheets append (`append_sheet_log`) swallows every exception and
writes no model-visible state, so it contributes nothing here. -/
def log_and_continue (env : Env) (db : DB) (entry : Entry) (product : Option Product)
    (caption status reason : Str) : DB :=
  log_event db (build_log_payload env.utcNow entry product caption status reason)

/-- Core `_process_entry` of `main.py`: safety filter, product match,
repeat-avoidance guard, caption, completeness checks, post request, logging.
Returns the updated store plus the `(posted, reason)` pair of the source.  Classifier
and caption raises propagate (no `try` covers them); only the `create_post` call is
inside `try/except`. -/
def process_entry (env : Env) (settings : Settings) (db : DB) (entry : Entry)
    (products : List Product) (brand : Brand) (last_products : List Str)
    (scheduled_time now_local : Time) : Except Str (DB × Bool × Str) := do
  let entry := { entry with brandName := brand.brandName, brandTags := brand.tags }
  let (ok, reason) ← safety_filter env settings entry products
  if !ok then
    let db := log_and_continue env db entry none [] "skipped".toList reason
    let db := record_article_check db brand.brandName (entry.get "title".toList [])
      (entry.get "url".toList []) "skipped".toList reason env.utcNow
    return (db, false, reason)
  let (product?, score) ← select_best_product env settings entry products
    settings.productMatchThreshold
  match product? with
  | none =>
    let reason := "No product match (score=".toList ++ format2f score ++ ")".toList
    let db := log_and_continue env db entry none [] "skipped".toList reason
    let db := record_article_check db brand.brandName (entry.get "title".toList [])
      (entry.get "url".toList []) "skipped".toList reason env.utcNow
    return (db, false, "No product match".toList)
  | some product =>
    let product_name := product.get "product_name".toList
    if settings.avoidRepeatProduct ∧ last_products ≠ [] ∧ product_name ∈ last_products then
      return (db, false, "repeat_product".toList)
    let caption ← generate_caption env settings entry product
    if product.get "product_image_url".toList = [] then
      let reason := "Missing product image URL".toList
      let db := log_and_continue env db entry (some product) caption "failed".toList reason
      let db := record_article_check db brand.brandName (entry.get "title".toList [])
        (entry.get "url".toList []) "failed".toList reason env.utcNow
      return (db, false, reason)
    if settings.postlyApiKey = [] then
      let reason := "Missing POSTLY_API_KEY".toList
      let db := log_and_continue env db entry (some product) caption "failed".toList reason
      let db := record_article_check db brand.brandName (entry.get "title".toList [])
        (entry.get "url".toList []) "failed".toList reason env.utcNow
      return (db, false, reason)
    let target_platforms := brand.targetPlatforms
    let workspace_ids :=
      if brand.workspaceIds ≠ [] then brand.workspaceIds else settings.postlyWorkspaceIds
    if target_platforms = [] then
      let reason := "Missing target platforms".toList
      let db := log_and_continue env db entry (some product) caption "failed".toList reason
      let db := record_article_check db brand.brandName (entry.get "title".toList [])
        (entry.get "url".toList []) "failed".toList reason env.utcNow
      return (db, false, reason)
    if workspace_ids = [] then
      let reason := "Missing workspace IDs".toList
      let db := log_and_continue env db entry (some product) caption "failed".toList reason
      let db := record_article_check db brand.brandName (entry.get "title".toList [])
        (entry.get "url".toList []) "failed".toList reason env.utcNow
      return (db, false, reason)
    match env.createPost settings.postlyBaseUrl settings.postlyApiKey caption
        (product.get "product_image_url".toList) scheduled_time target_platforms
        workspace_ids with
    | .ok _ =>
      let status := if scheduled_time ≤ now_local then "posted".toList else "scheduled".toList
      let post_payload : PostRecord :=
        { brandName := brand.brandName
          productName := product_name
          articleTitle := entry.get "title".toList []
          articleUrl := entry.get "url".toList []
          imageUrl := product.get "product_image_url".toList
          caption := caption
          scheduledTime := some scheduled_time
          postedTime := if status = "posted".toList then some now_local else none
          status := status }
      let db :=
        if status = "posted".toList then log_posted_post db post_payload
        else log_scheduled_post db post_payload
      let db := log_and_continue env db entry (some product) caption status []
      let db := record_article_check db brand.brandName (entry.get "title".toList [])
        (entry.get "url".toList []) status [] env.utcNow
      return (db, true, status)
    | .error exc =>
      let db := log_and_continue env db entry (some product) caption "failed".toList exc
      let db := log_scheduled_post db
        { brandName := brand.brandName
          productName := product_name
          articleTitle := entry.get "title".toList []
          articleUrl := entry.get "url".toList []
          imageUrl := product.get "product_image_url".toList
          caption := caption
          scheduledTime := some scheduled_time
          postedTime := none
          status := "failed".toList }
      let db := record_article_check db brand.brandName (entry.get "title".toList [])
        (entry.get "url".toList []) "failed".toList exc env.utcNow
      return (db, false, exc)

/-- Walk `_schedule_for_brand` of `main.py` over the entry list.  Note the seen-check
key: `entry.get("article_url", "")` — RSS entries carry the key `"url"`, so this
lookup always yields `""` (see `Entry.get`). -/
def schedule_for_brand (env : Env) (settings : Settings) (db : DB) (brand : Brand)
    (last_products : List Str) (products : List Product) (entries : List Entry)
    (scheduled_time now_local : Time) : Except Str (DB × Bool) := do
  match entries with
  | [] => return (db, false)
  | entry :: rest =>
    if article_seen db brand.brandName (entry.get "title".toList [])
        (entry.get "article_url".toList []) then
      schedule_for_brand env settings db brand last_products products rest
        scheduled_time now_local
    else
      let (db, posted, reason) ← process_entry env settings db entry products brand
        last_products scheduled_time now_local
      if reason = "repeat_product".toList then
        schedule_for_brand env settings db brand last_products products rest
          scheduled_time now_local
      else if posted then
        return (db, true)
      else
        schedule_for_brand env settings db brand last_products products rest
          scheduled_time now_local

/-- Body of the `for brand in brands` loop of `run_daily`: catalog load, topic
upsert, RSS ingest, day-bound checks, target-slot selection, entry walk, terminal
"no valid articles" log.  `continue` is an early `return db`. -/
def run_brand (env : Env) (settings : Settings) (db : DB) (brand : Brand) :
    Except Str DB := do
  let brand_name := brand.brandName
  let product_csv :=
    if brand.productInfoCsvPath ≠ [] then brand.productInfoCsvPath
    else settings.productInfoCsvPath
  let products := env.loadProducts product_csv
  if products = [] then
    return log_and_continue env db emptyEntry none [] "failed".toList
      ("Product catalog empty for ".toList ++ brand_name)
  let topics := derive_brand_topics products
  let db := upsert_brand_topics db
    { brandName := brand_name
      topics := topics.topics
      productCategories := topics.productCategories
      productSubcategories := topics.productSubcategories
      productTags := topics.productTags
      updatedAt := env.utcNow }
  let brand_sources := parse_brand_rss_sources brand.rssSources
  let sources := if brand_sources ≠ [] then brand_sources else settings.rssSources
  let entries := env.ingestRss sources
  let now_local := env.now
  let (today_start, today_end) := day_bounds now_local
  let (tomorrow_start, tomorrow_end) := day_bounds (now_local + usPerDay)
  let posted_today := has_posted_today db brand_name today_start today_end
  let last_products := get_last_products db brand_name settings.avoidRepeatProductCount
  if posted_today then
    if has_scheduled_between db brand_name tomorrow_start tomorrow_end then
      return db
    else
      let scheduled_time := schedule_time_for_day settings tomorrow_start
      let (db, scheduled) ← schedule_for_brand env settings db brand last_products
        products entries scheduled_time now_local
      if !scheduled then
        return log_and_continue env db emptyEntry none [] "failed".toList
          ("No valid articles found for ".toList ++ brand_name)
      return db
  else
    let scheduled_time := schedule_time_for_day settings today_start
    let scheduled_time := if scheduled_time ≤ now_local then now_local else scheduled_time
    let (db, scheduled) ← schedule_for_brand env settings db brand last_products
      products entries scheduled_time now_local
    if !scheduled then
      return log_and_continue env db emptyEntry none [] "failed".toList
        ("No valid articles found for ".toList ++ brand_name)
    return db

/-- Orchestrator `run_daily` of `main.py`: load brands, bail out on an empty list,
then process each brand in order.  Nothing in the loop catches exceptions, so a
raise inside one brand's processing aborts the whole fold (`foldlM` over `Except`
short-circuits exactly like an uncaught Python exception unwinding the `for` loop). -/
def run_daily (env : Env) (settings : Settings) (db : DB) : Except Str DB := do
  let brands := env.loadBrands settings.brandsCsvPath
  if brands = [] then
    return log_and_continue env db emptyEntry none [] "failed".toList
      "Brands.csv is empty".toList
  brands.foldlM (fun db brand => run_brand env settings db brand) db

/-! ## Decidability of result equality (for concrete evaluations) -/

instance {ε α : Type _} [DecidableEq ε] [DecidableEq α] : DecidableEq (Except ε α)
  | .ok x, .ok y => decidable_of_iff (x = y) (by simp)
  | .error x, .error y => decidable_of_iff (x = y) (by simp)
  | .ok _, .error _ => isFalse fun h => Except.noConfusion h
  | .error _, .ok _ => isFalse fun h => Except.noConfusion h

/-! ## Concrete test fixtures -/

/-- A fully cooperative environment: benign classifier replies, the chooser picks
candidate 1, the post request succeeds, local clock 08:00 (480 minutes), catalog
and feeds empty unless overridden. -/
def okEnv : Env :=
  { rerankChat := fun _ _ => .ok "CHOICE=1".toList
    hardblockChat := fun _ => .ok "HARDBLOCK=no".toList
    relevanceChat := fun _ _ => .ok "RELATED=yes;SCORE=0.9;REASON=fits".toList
    captionChat := fun _ _ => .ok "hello".toList
    createPost := fun _ _ _ _ _ _ _ => .ok ()
    loadBrands := fun _ => []
    loadProducts := fun _ => []
    ingestRss := fun _ => []
    now := 8 * usPerHour
    utcNow := 8 * usPerHour }

/-- An environment whose every outbound network call raises (`boom`): used to show
that a code path makes no external call (it still succeeds) or that it does (the
raise propagates). -/
def raisingEnv : Env :=
  { rerankChat := fun _ _ => .error "boom".toList
    hardblockChat := fun _ => .error "boom".toList
    relevanceChat := fun _ _ => .error "boom".toList
    captionChat := fun _ _ => .error "boom".toList
    createPost := fun _ _ _ _ _ _ _ => .error "boom".toList
    loadBrands := fun _ => []
    loadProducts := fun _ => []
    ingestRss := fun _ => []
    now := 8 * usPerHour
    utcNow := 8 * usPerHour }

/-- Settings with a classifier credential present (so AI gates actually call out). -/
def keyedSettings : Settings := { novitaApiKey := "k".toList }

/-- Entry whose title contains the hard-blocked topic `cancer`. -/
def c6Entry : Entry := { title := "New Cancer screening results".toList }

/-- Environment whose re-rank chooser replies `CHOICE=NONE`. -/
def rerankNoneEnv : Env := { okEnv with rerankChat := fun _ _ => .ok "CHOICE=NONE".toList }

/-- Settings with a credential and AI re-ranking on (the default toggle). -/
def rerankOnSettings : Settings := { novitaApiKey := "k".toList, useAiRerank := true }

/-- Settings with a credential and AI re-ranking off. -/
def rerankOffSettings : Settings := { novitaApiKey := "k".toList, useAiRerank := false }

/-- Entry with the single token `turmeric`. -/
def turmericEntry : Entry := { title := "Turmeric".toList }

/-- Product whose name token `turmeric` matches `turmericEntry` at weight 3.0. -/
def turmericProduct : Product := { productName := "Turmeric Capsules".toList }

/-- Entry with four distinct tokens (turmeric, extract, boosts, memory). -/
def fourTokenEntry : Entry := { title := "Turmeric extract boosts memory".toList }

/-- Product matching `fourTokenEntry` only through its description (weight 1.0),
for a lexical score of 1 / 4^0.7 ≈ 0.379. -/
def weakProduct : Product := { description := "turmeric root".toList }

/-- Bookkeeping each post-log row appended by one `process_entry` call satisfies. -/
abbrev postRowOk (sched now : Time) (r : PostRecord) : Prop :=
  r.scheduledTime = some sched ∧
    ((r.status = "posted".toList ∨ r.status = "scheduled".toList) →
      (r.status = "posted".toList ↔ sched ≤ now))

/-- Invariant: no article-history row has an empty brand name or title. -/
abbrev articleInv (db : DB) : Prop :=
  ∀ r ∈ db.articleHistory, r.brandName ≠ [] ∧ r.articleTitle ≠ []

/-- The target slot `run_brand` computes when the brand has not posted today:
today's configured hour:minute, or now when that slot has been reached. -/
def todayTarget (settings : Settings) (now : Time) : Time :=
  if schedule_time_for_day settings (day_bounds now).1 ≤ now then now
  else schedule_time_for_day settings (day_bounds now).1

def c1Entry : Entry := { title := "Turmeric".toList, url := "http://x".toList }

def c1Brand : Brand := { brandName := "B".toList }

def c1Db : DB :=
  record_article_check {} "B".toList "Turmeric".toList "http://x".toList
    "skipped".toList "No product match".toList 0

def c1Env : Env := { okEnv with hardblockChat := fun _ => .error "boom".toList }

def c10Result : DB := (run_daily okEnv {} c1Db).toOption.getD {}

def c4Product : Product :=
  { productName := "Turmeric Capsules".toList, productImageUrl := "http://img".toList }

def c4Brand : Brand :=
  { brandName := "B".toList, targetPlatforms := "instagram".toList,
    workspaceIds := "w".toList }

def c4Settings : Settings :=
  { novitaApiKey := "k".toList, useAiRerank := false, postlyApiKey := "pk".toList }

def c4Env : Env :=
  { okEnv with
    rerankChat := fun _ _ => .ok "CHOICE=NONE".toList
    loadProducts := fun _ => [c4Product]
    ingestRss := fun _ => [turmericEntry] }

def c4Result : DB := (run_brand c4Env c4Settings {} c4Brand).toOption.getD {}

def c5Db : DB :=
  { postLog :=
      [⟨"B".toList, "P".toList, "T".toList, "U".toList, "I".toList, "C".toList,
          some (5 * usPerHour), some (5 * usPerHour), "posted".toList⟩,
        ⟨"B".toList, "P".toList, "T2".toList, "U2".toList, "I".toList, "C".toList,
          some (29 * usPerHour), none, "scheduled".toList⟩] }

def c5RaisingEnv : Env :=
  { raisingEnv with
    loadProducts := c4Env.loadProducts
    ingestRss := c4Env.ingestRss
    now := c4Env.now
    utcNow := c4Env.utcNow }

def c2Brand2 : Brand := { brandName := "B2".toList }

def c2Env : Env :=
  { c1Env with
    loadBrands := fun _ => [c4Brand, c2Brand2]
    loadProducts := fun _ => [c4Product]
    ingestRss := fun _ => [turmericEntry] }

def c2pfEnv : Env :=
  { c4Env with
    createPost := fun _ _ _ _ _ _ _ => .error "postboom".toList
    loadBrands := fun _ => [c4Brand] }

def c2Caption : Str :=
  "hello #B #TurmericCapsules This content is shared for educational purposes only.".toList

/-! ## Supporting lemmas -/

theorem hard_block_go_hit (lowered : Str) (topics : List Str)
    (h : ∃ t ∈ topics, strContains lowered t = true) :
    ∃ t ∈ topics, strContains lowered t = true ∧
      hard_block_check.go lowered topics =
        (false, "Hard-blocked topic detected: ".toList ++ t) := by
  induction topics with
  | nil => simp at h
  | cons a rest ih =>
    by_cases ha : strContains lowered a = true
    · exact ⟨a, by simp, ha, by simp [hard_block_check.go, ha]⟩
    · obtain ⟨t, ht, hhit⟩ := h
      have ht' : t ∈ rest := by
        rcases List.mem_cons.mp ht with rfl | h'
        · exact absurd hhit ha
        · exact h'
      obtain ⟨t', ht'', hh', hgo⟩ := ih ⟨t, ht', hhit⟩
      exact ⟨t', List.mem_cons_of_mem _ ht'', hh', by simp [hard_block_check.go, ha, hgo]⟩

theorem safety_filter_of_hard_block (env : Env) (settings : Settings) (entry : Entry)
    (products : List Product) (t : Str)
    (hgo : hard_block_check settings
      (entry.get "title".toList [] ++ " ".toList ++ entry.get "summary".toList []) =
      (false, "Hard-blocked topic detected: ".toList ++ t)) :
    safety_filter env settings entry products =
      .ok (false, "Hard-blocked topic detected: ".toList ++ t) := by
  simp only [safety_filter]
  rw [hgo]
  rfl

theorem select_rerank_nothing (env : Env) (settings : Settings) (entry : Entry)
    (products : List Product) (m : PyFloat) (s : Score)
    (huse : settings.useAiRerank = true)
    (htop : ((rank_by_keywords entry products).filter fun item =>
      item.2.gtRat PyFloat.zero).take settings.aiRerankTopN ≠ [])
    (hai : ai_rerank env settings entry
      (((rank_by_keywords entry products).filter fun item =>
        item.2.gtRat PyFloat.zero).take settings.aiRerankTopN) = .ok (none, s)) :
    select_best_product env settings entry products m = .ok (none, s) := by
  simp only [select_best_product]
  split
  · rename_i heq
    rw [heq] at htop
    simp at htop
  · rename_i best tl heq
    rw [heq] at htop hai ⊢
    rw [if_pos ⟨huse, htop⟩, hai]
    simp only [Bind.bind, Except.bind, Option.isSome_none, Bool.false_eq_true, false_and,
      if_false]
    rfl

theorem select_no_rerank (env : Env) (settings : Settings) (entry : Entry)
    (products : List Product) (m : PyFloat) (best : Product × Score)
    (tl : List (Product × Score))
    (heq : rank_by_keywords entry products = best :: tl)
    (hcond : ¬(settings.useAiRerank = true ∧
      ((rank_by_keywords entry products).filter fun item =>
        item.2.gtRat PyFloat.zero).take settings.aiRerankTopN ≠ [])) :
    select_best_product env settings entry products m =
      if best.2.ltRat m = true then .ok (none, best.2)
      else .ok (some best.1, best.2) := by
  simp only [select_best_product]
  split
  · rename_i heq2
    rw [heq] at heq2
    exact absurd heq2 (by simp)
  · rename_i best' tl' heq2
    rw [heq] at heq2 hcond ⊢
    obtain ⟨rfl, rfl⟩ : best' = best ∧ tl' = tl := by
      have h1 := heq2
      injection h1 with ha hb
      exact ⟨ha.symm, hb.symm⟩
    rw [if_neg hcond]
    split <;> rfl

theorem select_some_geRat (env : Env) (settings : Settings) (entry : Entry)
    (products : List Product) (m : PyFloat) (p : Product) (s : Score)
    (hsel : select_best_product env settings entry products m = .ok (some p, s)) :
    s.geRat m = true := by
  simp only [select_best_product] at hsel
  split at hsel
  · exact absurd hsel (by simp [pure, Except.pure])
  · rename_i best tl heq
    rw [heq] at hsel
    split at hsel
    · cases hai : ai_rerank env settings entry
          (List.take settings.aiRerankTopN
            (List.filter (fun item => item.2.gtRat PyFloat.zero) (best :: tl))) with
      | error e =>
        rw [hai] at hsel
        simp only [Bind.bind, Except.bind] at hsel
        exact absurd hsel (by simp)
      | ok pr =>
        rw [hai] at hsel
        simp only [Bind.bind, Except.bind] at hsel
        split at hsel
        · rename_i hcond
          simp only [pure, Except.pure, Except.ok.injEq, Prod.mk.injEq] at hsel
          rw [← hsel.2]
          exact hcond.2
        · simp only [pure, Except.pure, Except.ok.injEq, Prod.mk.injEq] at hsel
          exact absurd hsel.1 (by simp)
    · split at hsel
      · simp only [pure, Except.pure, Except.ok.injEq, Prod.mk.injEq] at hsel
        exact absurd hsel.1 (by simp)
      · rename_i hlt
        simp only [pure, Except.pure, Except.ok.injEq, Prod.mk.injEq] at hsel
        rw [← hsel.2]
        rcases Bool.eq_false_or_eq_true ((best.2).geRat m) with h | h
        · exact h
        · exact absurd (by simp [Score.ltRat, h]) hlt

/-! ## Claim C6 -/

/-- C6: for every entry whose combined title+summary contains a configured
hard-block topic as a substring of its lowercased text, `safety_filter` rejects the
entry with reason `Hard-blocked topic detected: {topic}` (for the first hit in the
configured topic order), for EVERY environment — in particular for one whose
classifier calls would raise — so the keyword gate short-circuits and no classifier
call is made. -/
theorem c6_hard_block_short_circuits (settings : Settings) (entry : Entry)
    (products : List Product) (topic : Str)
    (hmem : topic ∈ settings.hardBlockTopics)
    (hhit : strContains
      (pyLower (entry.get "title".toList [] ++ " ".toList ++
        entry.get "summary".toList [])) topic = true) :
    ∃ t ∈ settings.hardBlockTopics,
      strContains (pyLower (entry.get "title".toList [] ++ " ".toList ++
        entry.get "summary".toList [])) t = true ∧
      ∀ env : Env, safety_filter env settings entry products =
        .ok (false, "Hard-blocked topic detected: ".toList ++ t) := by
  obtain ⟨t, ht, hh, hgo⟩ := hard_block_go_hit _ _ ⟨topic, hmem, hhit⟩
  exact ⟨t, ht, hh, fun env =>
    safety_filter_of_hard_block env settings entry products t hgo⟩

/-- C6 (witness): the default settings with entry title "New Cancer screening
results" and an environment whose classifier calls all raise: the safety filter
still rejects — no classifier call happens — with the cancer hard-block reason. -/
theorem c6_hard_block_short_circuits_witness :
    safety_filter raisingEnv keyedSettings c6Entry [] =
      .ok (false, "Hard-blocked topic detected: cancer".toList) := by
  obtain ⟨t, ht, hh, hall⟩ :=
    c6_hard_block_short_circuits keyedSettings c6Entry [] "cancer".toList
      (by decide) (by decide)
  have hres := hall raisingEnv
  have : t = "cancer".toList := by
    revert hh
    fin_cases ht <;> decide
  rw [this] at hres
  exact hres

/-! ## Claim C3 -/

/-- C3 (counterexample): with AI re-ranking enabled and the chooser replying
`CHOICE=NONE`, `select_best_product` returns `(absent, 0.0)` even though the top
lexical candidate's score 3.0 meets `min_score = 0.1` — it does NOT fall back to
the top lexical candidate, unlike the re-ranking-disabled run on the same input,
which returns that candidate. -/
theorem c3_counterexample :
    select_best_product rerankNoneEnv rerankOnSettings turmericEntry
      [turmericProduct] (⟨1, 10⟩ : PyFloat) = .ok (none, Score.zero) ∧
    rank_by_keywords turmericEntry [turmericProduct] = [(turmericProduct, ⟨⟨3, 1⟩, 1⟩)] ∧
    Score.geRat ⟨⟨3, 1⟩, 1⟩ (⟨1, 10⟩ : PyFloat) = true ∧
    select_best_product okEnv rerankOffSettings turmericEntry
      [turmericProduct] (⟨1, 10⟩ : PyFloat) = .ok (some turmericProduct, ⟨⟨3, 1⟩, 1⟩) ∧
    (some turmericProduct ≠ (none : Option Product)) := by
  refine ⟨by decide, by decide, by decide, by decide, by decide⟩

/-- C3 (amended): when AI re-ranking is enabled and there are positive-score
candidates but the re-ranker yields nothing (`_ai_rerank` returns the empty match
with its score 0.0 — the NONE / malformed / out-of-range reply paths),
`select_best_product` returns `(absent, that score)` without falling back; the
fallback to the top lexical candidate happens when re-ranking is disabled
(returning the candidate when its score meets `min_score`). -/
theorem c3_amended (env : Env) (settings : Settings) (entry : Entry)
    (products : List Product) (m : PyFloat) (s : Score) (best : Product × Score)
    (tl : List (Product × Score)) :
    (settings.useAiRerank = true →
      ((rank_by_keywords entry products).filter fun item =>
        item.2.gtRat PyFloat.zero).take settings.aiRerankTopN ≠ [] →
      ai_rerank env settings entry
        (((rank_by_keywords entry products).filter fun item =>
          item.2.gtRat PyFloat.zero).take settings.aiRerankTopN) = .ok (none, s) →
      select_best_product env settings entry products m = .ok (none, s)) ∧
    (settings.useAiRerank = false →
      rank_by_keywords entry products = best :: tl →
      best.2.geRat m = true →
      select_best_product env settings entry products m =
        .ok (some best.1, best.2)) := by
  constructor
  · intro huse htop hai
    exact select_rerank_nothing env settings entry products m s huse htop hai
  · intro huse heq hge
    rw [select_no_rerank env settings entry products m best tl heq
      (by simp [huse])]
    have : best.2.ltRat m = false := by simp [Score.ltRat, hge]
    rw [this]
    simp

/-- C3 (amended, witness): the amended behaviours at the concrete turmeric input:
re-ranking on + NONE reply gives `(absent, 0.0)`; re-ranking off gives the top
candidate with its score 3.0. -/
theorem c3_amended_witness :
    select_best_product rerankNoneEnv rerankOnSettings turmericEntry
      [turmericProduct] (⟨1, 10⟩ : PyFloat) = .ok (none, Score.zero) ∧
    select_best_product okEnv rerankOffSettings turmericEntry
      [turmericProduct] (⟨1, 10⟩ : PyFloat) = .ok (some turmericProduct, ⟨⟨3, 1⟩, 1⟩) := by
  constructor
  · exact (c3_amended rerankNoneEnv rerankOnSettings turmericEntry [turmericProduct]
      (⟨1, 10⟩ : PyFloat) Score.zero (turmericProduct, ⟨⟨3, 1⟩, 1⟩) []).1 (by decide) (by decide) (by decide)
  · exact (c3_amended okEnv rerankOffSettings turmericEntry [turmericProduct]
      (⟨1, 10⟩ : PyFloat) Score.zero (turmericProduct, ⟨⟨3, 1⟩, 1⟩) []).2 (by decide) (by decide) (by decide)

/-! ## Claim C7 -/

/-- C7 (counterexample): with re-ranking enabled (the default) and the chooser
replying NONE, a top lexical candidate whose score 1/4^0.7 ≈ 0.379 is positive but
below `min_score = 0.5` yields the result `(absent, 0.0)` — NOT
`(absent, that candidate's score)` as the claim's second half states (the two
scores differ: one is strictly positive, the other zero). -/
theorem c7_counterexample :
    select_best_product rerankNoneEnv rerankOnSettings fourTokenEntry
      [weakProduct] (⟨1, 2⟩ : PyFloat) = .ok (none, Score.zero) ∧
    rank_by_keywords fourTokenEntry [weakProduct] = [(weakProduct, ⟨⟨1, 1⟩, 4⟩)] ∧
    Score.ltRat ⟨⟨1, 1⟩, 4⟩ (⟨1, 2⟩ : PyFloat) = true ∧
    Score.gtRat ⟨⟨1, 1⟩, 4⟩ PyFloat.zero = true ∧
    Score.gtRat Score.zero PyFloat.zero = false ∧
    (Score.zero ≠ (⟨⟨1, 1⟩, 4⟩ : Score)) := by
  refine ⟨by decide, by decide, by decide, by decide, by decide, by decide⟩

/-- C7 (amended): `select_best_product` never returns a present product whose score
is below `min_score` (first half of the claim, unconditionally); and when AI
re-ranking is disabled, a top lexical candidate scoring below `min_score` yields
`(absent, that candidate's score)` (the claim's second half, which with re-ranking
enabled fails, as the returned score is then the re-ranker's). -/
theorem c7_amended (env : Env) (settings : Settings) (entry : Entry)
    (products : List Product) (m : PyFloat) :
    (∀ p s, select_best_product env settings entry products m = .ok (some p, s) →
      s.geRat m = true) ∧
    (∀ best tl, rank_by_keywords entry products = best :: tl →
      settings.useAiRerank = false → best.2.ltRat m = true →
      select_best_product env settings entry products m = .ok (none, best.2)) := by
  constructor
  · intro p s hsel
    exact select_some_geRat env settings entry products m p s hsel
  · intro best tl heq huse hlt
    rw [select_no_rerank env settings entry products m best tl heq (by simp [huse])]
    rw [hlt]
    simp

/-- C7 (amended, witness): at the concrete inputs: a returned product satisfies the
threshold (3.0 at min 0.1), and the re-ranking-off run on a below-threshold
candidate returns absent with that candidate's score 1/4^0.7. -/
theorem c7_amended_witness :
    Score.geRat ⟨⟨3, 1⟩, 1⟩ (⟨1, 10⟩ : PyFloat) = true ∧
    select_best_product okEnv rerankOffSettings fourTokenEntry [weakProduct] (⟨1, 2⟩ : PyFloat) =
      .ok (none, ⟨⟨1, 1⟩, 4⟩) := by
  constructor
  · exact (c7_amended okEnv rerankOffSettings turmericEntry [turmericProduct]
      (⟨1, 10⟩ : PyFloat)).1 turmericProduct ⟨⟨3, 1⟩, 1⟩ (by decide)
  · exact (c7_amended okEnv rerankOffSettings fourTokenEntry [weakProduct]
      (⟨1, 2⟩ : PyFloat)).2 (weakProduct, ⟨⟨1, 1⟩, 4⟩) [] (by decide) (by decide) (by decide)


theorem articleInv_record_article_check (db : DB) (b t u st rs : Str) (at' : Time)
    (h : articleInv db) :
    articleInv (record_article_check db b t u st rs at') := by
  unfold record_article_check
  split
  · exact h
  · rename_i hguard
    split
    · intro r hr
      simp only [List.mem_map] at hr
      obtain ⟨r₀, hr₀, hmap⟩ := hr
      rw [← hmap]
      split
      · exact ⟨(h r₀ hr₀).1, (h r₀ hr₀).2⟩
      · exact h r₀ hr₀
    · intro r hr
      rcases List.mem_append.mp hr with hin | hnew
      · exact h r hin
      · simp only [List.mem_singleton] at hnew
        rw [hnew]
        push_neg at hguard
        exact ⟨hguard.1, hguard.2⟩

theorem articleHistory_log_event (db : DB) (r : LogRecord) :
    (log_event db r).articleHistory = db.articleHistory := rfl

theorem articleHistory_log_and_continue (env : Env) (db : DB) (e : Entry)
    (p : Option Product) (c st rs : Str) :
    (log_and_continue env db e p c st rs).articleHistory = db.articleHistory := rfl

theorem articleHistory_log_scheduled_post (db : DB) (r : PostRecord) :
    (log_scheduled_post db r).articleHistory = db.articleHistory := rfl

theorem articleHistory_log_posted_post (db : DB) (r : PostRecord) :
    (log_posted_post db r).articleHistory = db.articleHistory := rfl

theorem postLog_log_event (db : DB) (r : LogRecord) :
    (log_event db r).postLog = db.postLog := rfl

theorem postLog_log_and_continue (env : Env) (db : DB) (e : Entry)
    (p : Option Product) (c st rs : Str) :
    (log_and_continue env db e p c st rs).postLog = db.postLog := rfl

theorem postLog_record_article_check (db : DB) (b t u st rs : Str) (at' : Time) :
    (record_article_check db b t u st rs at').postLog = db.postLog := by
  unfold record_article_check
  split
  · rfl
  · split <;> rfl

theorem except_bind_ok {ε α β : Type _} (x : α) (f : α → Except ε β) :
    Bind.bind (Except.ok x) f = f x := rfl

theorem except_bind_error {ε α β : Type _} (e : ε) (f : α → Except ε β) :
    Bind.bind (Except.error e : Except ε α) f = .error e := rfl

theorem except_bind_pure {ε α β : Type _} (x : α) (f : α → Except ε β) :
    Bind.bind (Pure.pure x : Except ε α) f = f x := rfl

theorem process_entry_frame (env : Env) (settings : Settings) (db : DB) (entry : Entry)
    (products : List Product) (brand : Brand) (last_products : List Str)
    (sched now : Time) (db' : DB) (b : Bool) (r : Str)
    (h : process_entry env settings db entry products brand last_products sched now =
      .ok (db', b, r)) :
    (articleInv db → articleInv db') ∧
    ∃ extra, db'.postLog = db.postLog ++ extra ∧ ∀ rec ∈ extra, postRowOk sched now rec := by
  unfold process_entry at h
  dsimp only at h
  cases hsf : safety_filter env settings
      { entry with brandName := brand.brandName, brandTags := brand.tags } products with
  | error e => rw [hsf, except_bind_error] at h; exact Except.noConfusion h
  | ok pr =>
    rw [hsf, except_bind_ok] at h
    obtain ⟨ok1, r1⟩ := pr
    dsimp only at h
    cases ok1 with
    | false =>
      rw [if_pos (show (!false) = true by decide)] at h
      injection h with h1
      injection h1 with hdb h2
      rw [← hdb]
      refine ⟨fun hinv => articleInv_record_article_check _ _ _ _ _ _ _ hinv,
        ⟨[], by simp [postLog_record_article_check, postLog_log_and_continue], by simp⟩⟩
    | true =>
      rw [if_neg (show ¬((!true) = true) by decide)] at h
      rw [except_bind_pure] at h
      cases hsel : select_best_product env settings
          { entry with brandName := brand.brandName, brandTags := brand.tags } products
          settings.productMatchThreshold with
      | error e => rw [hsel, except_bind_error] at h; exact Except.noConfusion h
      | ok pr2 =>
        rw [hsel, except_bind_ok] at h
        obtain ⟨popt, s⟩ := pr2
        dsimp only at h
        cases popt with
        | none =>
          try dsimp only at h
          injection h with h1
          injection h1 with hdb h2
          rw [← hdb]
          refine ⟨fun hinv => articleInv_record_article_check _ _ _ _ _ _ _ hinv,
            ⟨[], by simp [postLog_record_article_check, postLog_log_and_continue], by simp⟩⟩
        | some product =>
          try dsimp only at h
          by_cases hrep : settings.avoidRepeatProduct = true ∧
            last_products ≠ [] ∧ product.get "product_name".toList ∈ last_products
          · rw [if_pos hrep] at h
            injection h with h1
            injection h1 with hdb h2
            rw [← hdb]
            exact ⟨fun hinv => hinv, ⟨[], by simp, by simp⟩⟩
          · rw [if_neg hrep] at h
            rw [except_bind_pure] at h
            cases hcap : generate_caption env settings
                { entry with brandName := brand.brandName, brandTags := brand.tags }
                product with
            | error e => rw [hcap, except_bind_error] at h; exact Except.noConfusion h
            | ok caption =>
              rw [hcap, except_bind_ok] at h
              try dsimp only at h
              by_cases himg : product.get "product_image_url".toList = []
              · rw [if_pos himg] at h
                injection h with h1
                injection h1 with hdb h2
                rw [← hdb]
                refine ⟨fun hinv => articleInv_record_article_check _ _ _ _ _ _ _ hinv,
                  ⟨[], by simp [postLog_record_article_check, postLog_log_and_continue], by simp⟩⟩
              · rw [if_neg himg] at h
                by_cases hkey : settings.postlyApiKey = []
                · rw [if_pos hkey] at h
                  injection h with h1
                  injection h1 with hdb h2
                  rw [← hdb]
                  refine ⟨fun hinv => articleInv_record_article_check _ _ _ _ _ _ _ hinv,
                    ⟨[], by simp [postLog_record_article_check, postLog_log_and_continue], by simp⟩⟩
                · rw [if_neg hkey] at h
                  by_cases hplat : brand.targetPlatforms = []
                  · rw [if_pos hplat] at h
                    injection h with h1
                    injection h1 with hdb h2
                    rw [← hdb]
                    refine ⟨fun hinv => articleInv_record_article_check _ _ _ _ _ _ _ hinv,
                      ⟨[], by simp [postLog_record_article_check, postLog_log_and_continue], by simp⟩⟩
                  · rw [if_neg hplat] at h
                    by_cases hws : (if brand.workspaceIds ≠ [] then brand.workspaceIds
                        else settings.postlyWorkspaceIds) = []
                    · rw [if_pos hws] at h
                      injection h with h1
                      injection h1 with hdb h2
                      rw [← hdb]
                      refine ⟨fun hinv => articleInv_record_article_check _ _ _ _ _ _ _ hinv,
                        ⟨[], by simp [postLog_record_article_check, postLog_log_and_continue], by simp⟩⟩
                    · rw [if_neg hws] at h
                      cases hpost : env.createPost settings.postlyBaseUrl settings.postlyApiKey
                          caption (product.get "product_image_url".toList) sched
                          brand.targetPlatforms
                          (if brand.workspaceIds ≠ [] then brand.workspaceIds
                            else settings.postlyWorkspaceIds) with
                      | error exc =>
                        rw [hpost] at h
                        try dsimp only at h
                        injection h with h1
                        injection h1 with hdb h2
                        rw [← hdb]
                        constructor
                        · exact fun hinv => articleInv_record_article_check _ _ _ _ _ _ _ hinv
                        · refine ⟨[(⟨brand.brandName, product.get "product_name".toList,
                            ({ entry with brandName := brand.brandName, brandTags := brand.tags } : Entry).get "title".toList [],
                            ({ entry with brandName := brand.brandName, brandTags := brand.tags } : Entry).get "url".toList [],
                            product.get "product_image_url".toList, caption,
                            some sched, none, "failed".toList⟩ : PostRecord)], ?_, ?_⟩
                          · simp [postLog_record_article_check, postLog_log_and_continue,
                              log_scheduled_post]
                          · intro rec hrec
                            simp only [List.mem_singleton] at hrec
                            rw [hrec]
                            refine ⟨rfl, fun hstat => ?_⟩
                            rcases hstat with hstat | hstat <;> simp at hstat
                      | ok u =>
                        rw [hpost] at h
                        try dsimp only at h
                        by_cases hle : sched ≤ now
                        · rw [if_pos hle] at h
                          rw [if_pos (show ("posted".toList : Str) = "posted".toList from rfl)] at h
                          injection h with h1
                          injection h1 with hdb h2
                          rw [← hdb]
                          constructor
                          · exact fun hinv => articleInv_record_article_check _ _ _ _ _ _ _ hinv
                          · refine ⟨[(⟨brand.brandName, product.get "product_name".toList,
                            ({ entry with brandName := brand.brandName, brandTags := brand.tags } : Entry).get "title".toList [],
                            ({ entry with brandName := brand.brandName, brandTags := brand.tags } : Entry).get "url".toList [],
                            product.get "product_image_url".toList, caption,
                            some sched, some now, "posted".toList⟩ : PostRecord)], ?_, ?_⟩
                            · simp [postLog_record_article_check, postLog_log_and_continue,
                                log_posted_post, log_scheduled_post]
                            · intro rec hrec
                              simp only [List.mem_singleton] at hrec
                              rw [hrec]
                              exact ⟨rfl, fun _ => ⟨fun _ => hle, fun _ => rfl⟩⟩
                        · rw [if_neg hle] at h
                          rw [if_neg (show ¬(("scheduled".toList : Str) = "posted".toList)
                            by decide)] at h
                          injection h with h1
                          injection h1 with hdb h2
                          rw [← hdb]
                          constructor
                          · exact fun hinv => articleInv_record_article_check _ _ _ _ _ _ _ hinv
                          · refine ⟨[(⟨brand.brandName, product.get "product_name".toList,
                            ({ entry with brandName := brand.brandName, brandTags := brand.tags } : Entry).get "title".toList [],
                            ({ entry with brandName := brand.brandName, brandTags := brand.tags } : Entry).get "url".toList [],
                            product.get "product_image_url".toList, caption,
                            some sched, none, "scheduled".toList⟩ : PostRecord)], ?_, ?_⟩
                            · simp [postLog_record_article_check, postLog_log_and_continue,
                                log_scheduled_post]
                            · intro rec hrec
                              simp only [List.mem_singleton] at hrec
                              rw [hrec]
                              refine ⟨rfl, fun hstat => ⟨fun hc => ?_, fun hc => absurd hc hle⟩⟩
                              simp at hc

theorem schedule_for_brand_frame (env : Env) (settings : Settings) (db : DB)
    (brand : Brand) (last_products : List Str) (products : List Product)
    (entries : List Entry) (sched now : Time) (db' : DB) (ok : Bool)
    (h : schedule_for_brand env settings db brand last_products products entries
      sched now = .ok (db', ok)) :
    (articleInv db → articleInv db') ∧
    ∃ extra, db'.postLog = db.postLog ++ extra ∧ ∀ rec ∈ extra, postRowOk sched now rec := by
  induction entries generalizing db with
  | nil =>
    unfold schedule_for_brand at h
    injection h with h1
    injection h1 with hdb _
    rw [← hdb]
    exact ⟨fun hi => hi, ⟨[], by simp, by simp⟩⟩
  | cons e rest ih =>
    unfold schedule_for_brand at h
    by_cases hseen : article_seen db brand.brandName (e.get "title".toList [])
      (e.get "article_url".toList []) = true
    · rw [if_pos hseen] at h
      exact ih db h
    · rw [if_neg hseen] at h
      cases hpe : process_entry env settings db e products brand last_products sched now with
      | error err => rw [hpe, except_bind_error] at h; exact Except.noConfusion h
      | ok trip =>
        rw [hpe, except_bind_ok] at h
        obtain ⟨db₁, posted, reason⟩ := trip
        obtain ⟨hinv1, extra1, hpl1, hok1⟩ :=
          process_entry_frame env settings db e products brand last_products sched now
            db₁ posted reason hpe
        dsimp only at h
        by_cases hrr : reason = "repeat_product".toList
        · rw [if_pos hrr] at h
          obtain ⟨hinv2, extra2, hpl2, hok2⟩ := ih db₁ h
          refine ⟨fun hi => hinv2 (hinv1 hi), ⟨extra1 ++ extra2, ?_, ?_⟩⟩
          · rw [hpl2, hpl1, List.append_assoc]
          · intro rec hr
            rcases List.mem_append.mp hr with hr | hr
            · exact hok1 rec hr
            · exact hok2 rec hr
        · rw [if_neg hrr] at h
          cases posted with
          | true =>
            rw [if_pos rfl] at h
            injection h with h1
            injection h1 with hdb _
            rw [← hdb]
            exact ⟨hinv1, ⟨extra1, hpl1, hok1⟩⟩
          | false =>
            rw [if_neg (show ¬(false = true) by decide)] at h
            obtain ⟨hinv2, extra2, hpl2, hok2⟩ := ih db₁ h
            refine ⟨fun hi => hinv2 (hinv1 hi), ⟨extra1 ++ extra2, ?_, ?_⟩⟩
            · rw [hpl2, hpl1, List.append_assoc]
            · intro rec hr
              rcases List.mem_append.mp hr with hr | hr
              · exact hok1 rec hr
              · exact hok2 rec hr

theorem postLog_upsert_brand_topics (db : DB) (p : BrandTopicsRecord) :
    (upsert_brand_topics db p).postLog = db.postLog := by
  unfold upsert_brand_topics
  split <;> rfl

theorem has_posted_today_upsert (db : DB) (p : BrandTopicsRecord) (b : Str)
    (s e : Time) :
    has_posted_today (upsert_brand_topics db p) b s e = has_posted_today db b s e := by
  unfold has_posted_today
  rw [postLog_upsert_brand_topics]

theorem run_brand_not_posted_today_postlog (env : Env) (settings : Settings)
    (db : DB) (brand : Brand) (db' : DB)
    (hnp : has_posted_today db brand.brandName (day_bounds env.now).1
      (day_bounds env.now).2 = false)
    (hrun : run_brand env settings db brand = .ok db') :
    ∃ extra, db'.postLog = db.postLog ++ extra ∧
      ∀ rec ∈ extra, postRowOk (todayTarget settings env.now) env.now rec := by
  unfold run_brand at hrun
  dsimp only at hrun
  split at hrun
  all_goals split at hrun
  any_goals
    (injection hrun with hdb
     rw [← hdb]
     exact ⟨[], by simp [postLog_log_and_continue], by simp⟩)
  all_goals
    rw [has_posted_today_upsert] at hrun
    rw [if_neg (by rw [hnp]; exact Bool.false_ne_true)] at hrun
    rw [except_bind_pure] at hrun
    simp only [Bind.bind, Except.bind] at hrun
    split at hrun
  any_goals exact Except.noConfusion hrun
  all_goals
    rename_i val heq
    obtain ⟨dbS, okS⟩ := val
    obtain ⟨extra, hpl, hok⟩ :=
      (schedule_for_brand_frame _ _ _ _ _ _ _ _ _ _ _ heq).2
    rw [postLog_upsert_brand_topics] at hpl
    refine ⟨extra, ?_, fun rec hr => hok rec hr⟩
    dsimp only at hrun
    cases okS with
    | true =>
      rw [if_neg (show ¬((!true) = true) by decide)] at hrun
      injection hrun with hdb
      rw [← hdb]
      exact hpl
    | false =>
      rw [if_pos (show (!false) = true by decide)] at hrun
      injection hrun with hdb
      rw [← hdb]
      rw [postLog_log_and_continue]
      exact hpl

theorem articleHistory_upsert_brand_topics (db : DB) (p : BrandTopicsRecord) :
    (upsert_brand_topics db p).articleHistory = db.articleHistory := by
  unfold upsert_brand_topics
  split <;> rfl

theorem has_scheduled_between_upsert (db : DB) (p : BrandTopicsRecord) (b : Str)
    (s e : Time) :
    has_scheduled_between (upsert_brand_topics db p) b s e =
      has_scheduled_between db b s e := by
  unfold has_scheduled_between
  rw [postLog_upsert_brand_topics]

theorem log_and_continue_utc (env env' : Env) (hutc : env'.utcNow = env.utcNow)
    (db : DB) (e : Entry) (p : Option Product) (c st rs : Str) :
    log_and_continue env' db e p c st rs = log_and_continue env db e p c st rs := by
  unfold log_and_continue build_log_payload
  rw [hutc]

/-- C5: a brand with a `posted` record inside today's local window and a
`scheduled` record inside tomorrow's window is a no-op for `run_brand`: the
post log and the article-check history are unchanged (no second scheduled
record, no entry checked), and the outcome is independent of every scan
collaborator — classifiers, re-ranker, caption model and the posting client
are never consulted, only the catalog/feed loaders and the clock matter. -/
theorem c5_already_scheduled_noop (env env' : Env) (settings : Settings) (db : DB) (brand : Brand)
    (hlp : env'.loadProducts = env.loadProducts)
    (hing : env'.ingestRss = env.ingestRss)
    (hnow : env'.now = env.now)
    (hutc : env'.utcNow = env.utcNow)
    (hp : has_posted_today db brand.brandName (day_bounds env.now).1
      (day_bounds env.now).2 = true)
    (hs : has_scheduled_between db brand.brandName (day_bounds (env.now + usPerDay)).1
      (day_bounds (env.now + usPerDay)).2 = true) :
    (run_brand env settings db brand).toOption.map DB.postLog = some db.postLog ∧
    (run_brand env settings db brand).toOption.map DB.articleHistory =
      some db.articleHistory ∧
    run_brand env' settings db brand = run_brand env settings db brand := by
  have main : ∀ envx : Env, envx.loadProducts = env.loadProducts →
      envx.utcNow = env.utcNow → envx.now = env.now →
      run_brand envx settings db brand =
        (if env.loadProducts (if brand.productInfoCsvPath ≠ [] then
            brand.productInfoCsvPath else settings.productInfoCsvPath) = [] then
          Except.ok (log_and_continue env db emptyEntry none [] "failed".toList
            ("Product catalog empty for ".toList ++ brand.brandName))
        else
          Except.ok (upsert_brand_topics db
            { brandName := brand.brandName
              topics := (derive_brand_topics (env.loadProducts
                (if brand.productInfoCsvPath ≠ [] then brand.productInfoCsvPath
                  else settings.productInfoCsvPath))).topics
              productCategories := (derive_brand_topics (env.loadProducts
                (if brand.productInfoCsvPath ≠ [] then brand.productInfoCsvPath
                  else settings.productInfoCsvPath))).productCategories
              productSubcategories := (derive_brand_topics (env.loadProducts
                (if brand.productInfoCsvPath ≠ [] then brand.productInfoCsvPath
                  else settings.productInfoCsvPath))).productSubcategories
              productTags := (derive_brand_topics (env.loadProducts
                (if brand.productInfoCsvPath ≠ [] then brand.productInfoCsvPath
                  else settings.productInfoCsvPath))).productTags
              updatedAt := env.utcNow })) := by
    intro envx hxl hxu hxn
    unfold run_brand
    dsimp only
    rw [hxl, hxu, hxn]
    by_cases hprod : env.loadProducts (if brand.productInfoCsvPath ≠ [] then
        brand.productInfoCsvPath else settings.productInfoCsvPath) = []
    · rw [if_pos hprod, if_pos hprod]
      rw [log_and_continue_utc env envx (by rw [hxu])]
      rfl
    · rw [if_neg hprod, if_neg hprod]
      rw [if_pos (by rw [has_posted_today_upsert]; exact hp)]
      rw [if_pos (by rw [has_scheduled_between_upsert]; exact hs)]
      rw [except_bind_pure]
      rfl
  refine ⟨?_, ?_, ?_⟩
  · rw [main env rfl rfl rfl]
    by_cases hprod : env.loadProducts (if brand.productInfoCsvPath ≠ [] then
        brand.productInfoCsvPath else settings.productInfoCsvPath) = []
    · rw [if_pos hprod]; simp [Except.toOption, postLog_log_and_continue]
    · rw [if_neg hprod]; simp [Except.toOption, postLog_upsert_brand_topics]
  · rw [main env rfl rfl rfl]
    by_cases hprod : env.loadProducts (if brand.productInfoCsvPath ≠ [] then
        brand.productInfoCsvPath else settings.productInfoCsvPath) = []
    · rw [if_pos hprod]; simp [Except.toOption, articleHistory_log_and_continue]
    · rw [if_neg hprod]; simp [Except.toOption, articleHistory_upsert_brand_topics]
  · rw [main env rfl rfl rfl, main env' hlp hutc hnow]

theorem articleInv_upsert (db : DB) (p : BrandTopicsRecord) (h : articleInv db) :
    articleInv (upsert_brand_topics db p) := by
  intro r hr
  rw [articleHistory_upsert_brand_topics] at hr
  exact h r hr

theorem run_brand_articleInv (env : Env) (settings : Settings) (db : DB)
    (brand : Brand) (db' : DB) (hrun : run_brand env settings db brand = .ok db')
    (hinv : articleInv db) : articleInv db' := by
  unfold run_brand at hrun
  dsimp only at hrun
  split at hrun
  all_goals split at hrun
  any_goals
    (injection hrun with hdb
     rw [← hdb]
     exact hinv)
  all_goals rw [except_bind_pure] at hrun
  all_goals split at hrun
  all_goals try split at hrun
  all_goals
    first
    | (injection hrun with hdb
       rw [← hdb]
       exact articleInv_upsert _ _ hinv)
    | (simp only [Bind.bind, Except.bind] at hrun
       split at hrun
       · exact Except.noConfusion hrun
       · rename_i val heq
         obtain ⟨dbS, okS⟩ := val
         have hinvS : articleInv dbS :=
           (schedule_for_brand_frame _ _ _ _ _ _ _ _ _ _ _ heq).1
             (articleInv_upsert _ _ hinv)
         dsimp only at hrun
         cases okS with
         | true =>
           rw [if_neg (show ¬((!true) = true) by decide)] at hrun
           injection hrun with hdb
           rw [← hdb]
           exact hinvS
         | false =>
           rw [if_pos (show (!false) = true by decide)] at hrun
           injection hrun with hdb
           rw [← hdb]
           exact hinvS)

theorem run_daily_articleInv (env : Env) (settings : Settings) (db : DB)
    (db' : DB) (hrun : run_daily env settings db = .ok db')
    (hinv : articleInv db) : articleInv db' := by
  unfold run_daily at hrun
  dsimp only at hrun
  split at hrun
  · injection hrun with hdb
    rw [← hdb]
    exact hinv
  · rename_i hbrands
    clear hbrands
    generalize env.loadBrands settings.brandsCsvPath = brands at hrun
    induction brands generalizing db with
    | nil =>
      simp only [List.foldlM] at hrun
      injection hrun with hdb
      rw [← hdb]
      exact hinv
    | cons brand rest ih =>
      simp only [List.foldlM] at hrun
      cases hrb : run_brand env settings db brand with
      | error e => rw [hrb, except_bind_error] at hrun; exact Except.noConfusion hrun
      | ok db₁ =>
        rw [hrb, except_bind_ok] at hrun
        exact ih db₁ (run_brand_articleInv env settings db brand db₁ hrb hinv) hrun

theorem ai_hardblock_check_ok (env : Env) (settings : Settings) (text : Str)
    (hh : ∀ t, ∃ v, env.hardblockChat t = .ok v) :
    ∃ v, ai_hardblock_check env settings text = .ok v := by
  unfold ai_hardblock_check
  by_cases hkey : settings.novitaApiKey = []
  · rw [if_pos hkey]
    exact ⟨_, rfl⟩
  · rw [if_neg hkey]
    obtain ⟨v, hv⟩ := hh text
    rw [except_bind_pure, hv, except_bind_ok]
    dsimp only
    split <;> (try split) <;> exact ⟨_, rfl⟩

theorem ai_product_relevance_check_ok (env : Env) (settings : Settings) (text : Str)
    (products : List Product)
    (hr : ∀ t ps, ∃ v, env.relevanceChat t ps = .ok v) :
    ∃ v, ai_product_relevance_check env settings text products = .ok v := by
  unfold ai_product_relevance_check
  by_cases hkey : settings.novitaApiKey = []
  · rw [if_pos hkey]
    exact ⟨_, rfl⟩
  · rw [if_neg hkey]
    obtain ⟨v, hv⟩ := hr text (products.take 30)
    rw [except_bind_pure, hv, except_bind_ok]
    dsimp only
    split <;> (try split) <;> exact ⟨_, rfl⟩

theorem safety_filter_ok (env : Env) (settings : Settings) (entry : Entry)
    (products : List Product)
    (hh : ∀ t, ∃ v, env.hardblockChat t = .ok v)
    (hr : ∀ t ps, ∃ v, env.relevanceChat t ps = .ok v) :
    ∃ v, safety_filter env settings entry products = .ok v := by
  unfold safety_filter
  dsimp only
  split
  · exact ⟨_, rfl⟩
  · obtain ⟨v₂, hv₂⟩ := ai_hardblock_check_ok env settings _ hh
    rw [except_bind_pure, hv₂, except_bind_ok]
    split
    · exact ⟨_, rfl⟩
    · obtain ⟨v₃, hv₃⟩ := ai_product_relevance_check_ok env settings _ products hr
      rw [except_bind_pure, hv₃, except_bind_ok]
      split
      · exact ⟨_, rfl⟩
      · exact ⟨_, rfl⟩

theorem exists_ok_ite {ε α : Type _} (c : Prop) [Decidable c] (a b : Except ε α)
    (ha : ∃ v, a = .ok v) (hb : ∃ v, b = .ok v) :
    ∃ v, (if c then a else b) = .ok v := by
  split
  · exact ha
  · exact hb

theorem generate_caption_ok (env : Env) (settings : Settings) (entry : Entry)
    (product : Product)
    (hc : ∀ e p, ∃ v, env.captionChat e p = .ok v) :
    ∃ v, generate_caption env settings entry product = .ok v := by
  unfold generate_caption
  obtain ⟨v, hv⟩ := hc entry product
  rw [hv, except_bind_ok]
  dsimp only
  exact exists_ok_ite _ _ _ ⟨_, rfl⟩ (exists_ok_ite _ _ _ ⟨_, rfl⟩ ⟨_, rfl⟩)

theorem select_best_product_ok (env : Env) (settings : Settings) (entry : Entry)
    (products : List Product) (m : PyFloat)
    (hai : ∀ e c, ∃ v, ai_rerank env settings e c = .ok v) :
    ∃ v, select_best_product env settings entry products m = .ok v := by
  unfold select_best_product
  dsimp only
  split
  · exact ⟨_, rfl⟩
  · split
    · obtain ⟨v, hv⟩ := hai entry _
      rw [hv, except_bind_ok]
      split
      · exact ⟨_, rfl⟩
      · exact ⟨_, rfl⟩
    · split
      · exact ⟨_, rfl⟩
      · exact ⟨_, rfl⟩

theorem process_entry_ok (env : Env) (settings : Settings) (db : DB) (entry : Entry)
    (products : List Product) (brand : Brand) (last_products : List Str)
    (sched now : Time)
    (hh : ∀ t, ∃ v, env.hardblockChat t = .ok v)
    (hr : ∀ t ps, ∃ v, env.relevanceChat t ps = .ok v)
    (hai : ∀ e c, ∃ v, ai_rerank env settings e c = .ok v)
    (hc : ∀ e p, ∃ v, env.captionChat e p = .ok v) :
    ∃ v, process_entry env settings db entry products brand last_products
      sched now = .ok v := by
  unfold process_entry
  dsimp only
  obtain ⟨⟨ok1, r1⟩, hsf⟩ := safety_filter_ok env settings
    { entry with brandName := brand.brandName, brandTags := brand.tags } products hh hr
  rw [hsf, except_bind_ok]
  cases ok1 with
  | false => exact ⟨_, rfl⟩
  | true =>
    rw [if_neg (show ¬((!true) = true) by decide), except_bind_pure]
    obtain ⟨⟨popt, s⟩, hsel⟩ := select_best_product_ok env settings
      { entry with brandName := brand.brandName, brandTags := brand.tags } products
      settings.productMatchThreshold hai
    rw [hsel, except_bind_ok]
    dsimp only
    split
    · exact ⟨_, rfl⟩
    · rename_i product
      split
      · exact ⟨_, rfl⟩
      · rw [except_bind_pure]
        obtain ⟨caption, hcap⟩ := generate_caption_ok env settings
          { entry with brandName := brand.brandName, brandTags := brand.tags } product hc
        rw [hcap, except_bind_ok]
        try dsimp only
        repeat rw [except_bind_pure]
        refine exists_ok_ite _ _ _ ⟨_, rfl⟩ ?_
        refine exists_ok_ite _ _ _ ⟨_, rfl⟩ ?_
        refine exists_ok_ite _ _ _ ⟨_, rfl⟩ ?_
        refine exists_ok_ite _ _ _ ⟨_, rfl⟩ ?_
        cases hpost : env.createPost settings.postlyBaseUrl settings.postlyApiKey
            caption (product.get "product_image_url".toList) sched
            brand.targetPlatforms
            (if brand.workspaceIds ≠ [] then brand.workspaceIds
              else settings.postlyWorkspaceIds) with
        | error exc => exact ⟨_, rfl⟩
        | ok u => exact ⟨_, rfl⟩

theorem schedule_for_brand_ok (env : Env) (settings : Settings) (db : DB)
    (brand : Brand) (last_products : List Str) (products : List Product)
    (entries : List Entry) (sched now : Time)
    (hh : ∀ t, ∃ v, env.hardblockChat t = .ok v)
    (hr : ∀ t ps, ∃ v, env.relevanceChat t ps = .ok v)
    (hai : ∀ e c, ∃ v, ai_rerank env settings e c = .ok v)
    (hc : ∀ e p, ∃ v, env.captionChat e p = .ok v) :
    ∃ v, schedule_for_brand env settings db brand last_products products entries
      sched now = .ok v := by
  induction entries generalizing db with
  | nil => exact ⟨_, rfl⟩
  | cons e rest ih =>
    unfold schedule_for_brand
    split
    · exact ih db
    · obtain ⟨⟨db₁, posted, reason⟩, hpe⟩ :=
        process_entry_ok env settings db e products brand last_products sched now
          hh hr hai hc
      rw [hpe, except_bind_ok]
      dsimp only
      split
      · exact ih db₁
      · cases posted with
        | true => exact ⟨_, rfl⟩
        | false =>
          rw [if_neg (show ¬(false = true) by decide)]
          exact ih db₁

theorem run_brand_ok (env : Env) (settings : Settings) (db : DB) (brand : Brand)
    (hh : ∀ t, ∃ v, env.hardblockChat t = .ok v)
    (hr : ∀ t ps, ∃ v, env.relevanceChat t ps = .ok v)
    (hai : ∀ e c, ∃ v, ai_rerank env settings e c = .ok v)
    (hc : ∀ e p, ∃ v, env.captionChat e p = .ok v) :
    ∃ v, run_brand env settings db brand = .ok v := by
  unfold run_brand
  dsimp only
  rw [except_bind_pure]
  refine exists_ok_ite _ _ _ ⟨_, rfl⟩ ?_
  refine exists_ok_ite _ _ _ ?_ ?_
  · refine exists_ok_ite _ _ _ ⟨_, rfl⟩ ?_
    obtain ⟨⟨dbS, okS⟩, hsch⟩ := schedule_for_brand_ok env settings _ brand _ _ _ _ _
      hh hr hai hc
    rw [hsch, except_bind_ok]
    cases okS with
    | true => exact ⟨_, rfl⟩
    | false => exact ⟨_, rfl⟩
  · obtain ⟨⟨dbS, okS⟩, hsch⟩ := schedule_for_brand_ok env settings _ brand _ _ _ _ _
      hh hr hai hc
    rw [hsch, except_bind_ok]
    cases okS with
    | true => exact ⟨_, rfl⟩
    | false => exact ⟨_, rfl⟩

theorem run_daily_ok (env : Env) (settings : Settings) (db : DB)
    (hh : ∀ t, ∃ v, env.hardblockChat t = .ok v)
    (hr : ∀ t ps, ∃ v, env.relevanceChat t ps = .ok v)
    (hai : ∀ e c, ∃ v, ai_rerank env settings e c = .ok v)
    (hc : ∀ e p, ∃ v, env.captionChat e p = .ok v) :
    ∃ v, run_daily env settings db = .ok v := by
  unfold run_daily
  dsimp only
  split
  · exact ⟨_, rfl⟩
  · generalize env.loadBrands settings.brandsCsvPath = brands
    induction brands generalizing db with
    | nil => exact ⟨_, rfl⟩
    | cons brand rest ih =>
      simp only [List.foldlM]
      obtain ⟨db₁, hrb⟩ := run_brand_ok env settings db brand hh hr hai hc
      rw [hrb, except_bind_ok]
      exact ih db₁

theorem pyWordsAux_append_ws (a b : Str) (acc : Str) :
    pyWordsAux (a ++ ' ' :: b) acc = pyWordsAux a acc ++ pyWordsAux b [] := by
  induction a generalizing acc with
  | nil =>
    simp only [List.nil_append, pyWordsAux, List.append_eq]
    rw [if_pos (by decide)]
    by_cases hacc : acc = []
    · rw [if_pos hacc, if_pos hacc, List.nil_append]
    · rw [if_neg hacc, if_neg hacc, List.cons_append, List.nil_append]
  | cons c cs ih =>
    simp only [List.cons_append, pyWordsAux, List.append_eq]
    by_cases hws : c.isWhitespace
    · rw [if_pos hws, if_pos hws]
      by_cases hacc : acc = []
      · rw [if_pos hacc, if_pos hacc, ih]
      · rw [if_neg hacc, if_neg hacc, ih, List.cons_append]
    · rw [if_neg hws, if_neg hws, ih]

theorem countWords_append_filler (s : Str) :
    countWords (s ++ fillerSentence) = countWords s + 8 := by
  show (pyWords (s ++ ' ' :: "This content is shared for educational purposes only.".toList)).length = _
  unfold pyWords
  rw [pyWordsAux_append_ws, List.length_append]
  rfl

theorem pyWordsAux_members (s : Str) (acc : Str)
    (hacc : ∀ c ∈ acc, ¬c.isWhitespace) :
    ∀ w ∈ pyWordsAux s acc, w ≠ [] ∧ ∀ c ∈ w, ¬c.isWhitespace := by
  induction s generalizing acc with
  | nil =>
    intro w hw
    unfold pyWordsAux at hw
    by_cases h : acc = []
    · rw [if_pos h] at hw; exact absurd hw (List.not_mem_nil w)
    · rw [if_neg h] at hw
      simp only [List.mem_singleton] at hw
      subst hw
      refine ⟨by simpa using h, ?_⟩
      intro c hc
      exact hacc c (List.mem_reverse.mp hc)
  | cons c cs ih =>
    intro w hw
    unfold pyWordsAux at hw
    by_cases hws : c.isWhitespace
    · rw [if_pos hws] at hw
      by_cases h : acc = []
      · rw [if_pos h] at hw
        exact ih [] (by intro d hd; exact absurd hd (List.not_mem_nil d)) w hw
      · rw [if_neg h] at hw
        rcases List.mem_cons.mp hw with hrev | htail
        · subst hrev
          refine ⟨by simpa using h, ?_⟩
          intro d hd
          exact hacc d (List.mem_reverse.mp hd)
        · exact ih [] (by intro d hd; exact absurd hd (List.not_mem_nil d)) w htail
    · rw [if_neg hws] at hw
      exact ih (c :: acc)
        (by intro d hd
            rcases List.mem_cons.mp hd with h1 | h2
            · subst h1; exact hws
            · exact hacc d h2) w hw

theorem pyWords_members (s : Str) :
    ∀ w ∈ pyWords s, w ≠ [] ∧ ∀ c ∈ w, ¬c.isWhitespace := by
  intro w hw
  exact pyWordsAux_members s []
    (by intro c hc; exact absurd hc (List.not_mem_nil c)) w hw

theorem pyWords_single (w : Str) (hne : w ≠ [])
    (hws : ∀ c ∈ w, ¬c.isWhitespace) : pyWords w = [w] := by
  have key : ∀ (v : Str) (acc : Str), (∀ c ∈ v, ¬c.isWhitespace) →
      pyWordsAux v acc = pyWordsAux [] (v.reverse ++ acc) := by
    intro v
    induction v with
    | nil => intro acc _; simp
    | cons c cs ih =>
      intro acc hv
      unfold pyWordsAux
      rw [if_neg (hv c (List.mem_cons_self c cs))]
      rw [ih (c :: acc) (fun d hd => hv d (List.mem_cons_of_mem c hd))]
      rw [show cs.reverse ++ c :: acc = (c :: cs).reverse ++ acc by simp]
      rfl
  unfold pyWords
  rw [key w [] hws]
  unfold pyWordsAux
  rw [if_neg (by simpa using hne)]
  try simp

theorem pyWords_joinWords (ws : List Str)
    (h : ∀ w ∈ ws, w ≠ [] ∧ ∀ c ∈ w, ¬c.isWhitespace) :
    pyWords (joinWords ws) = ws := by
  induction ws with
  | nil => rfl
  | cons w rest ih =>
    cases rest with
    | nil =>
      show pyWords (joinWords [w]) = [w]
      have hw := h w (List.mem_cons_self w [])
      simpa [joinWords, List.intercalate] using pyWords_single w hw.1 hw.2
    | cons w2 rest2 =>
      have hjoin : joinWords (w :: w2 :: rest2) = w ++ ' ' :: joinWords (w2 :: rest2) := by
        simp [joinWords, List.intercalate, List.intersperse]
      rw [hjoin]
      unfold pyWords
      rw [pyWordsAux_append_ws]
      have hw := h w (List.mem_cons_self w _)
      have h1 : pyWordsAux w [] = [w] := pyWords_single w hw.1 hw.2
      have h2 : pyWordsAux (joinWords (w2 :: rest2)) [] = w2 :: rest2 :=
        ih (fun v hv => h v (List.mem_cons_of_mem w hv))
      rw [h1, h2]
      rfl

theorem countWords_join_take (s : Str) (n : ℕ) :
    countWords (joinWords ((pyWords s).take n)) = min n (countWords s) := by
  unfold countWords
  rw [pyWords_joinWords ((pyWords s).take n)
      (fun w hw => pyWords_members s w (List.take_subset n _ hw))]
  simp [List.length_take]

/-- C8: the spec promises the caption is within `[min_words, max_words]` after
enforcement.  The lower bound is false (see the counterexample); this amended
theorem is the true guarantee: the word count never exceeds
`max(caption_max_words, caption_min_words + 7)` (the filler sentence adds eight
words to a caption of at most `min_words - 1` words; the truncation branch cuts
to `caption_max_words`). -/
theorem enforce_caption_bound (settings : Settings) (C caption : Str)
    (h : (if countWords C < settings.captionMinWords then
            pure (C ++ fillerSentence)
          else if countWords C > settings.captionMaxWords then
            pure (joinWords ((pyWords C).take settings.captionMaxWords))
          else pure C : Except Str Str) = .ok caption) :
    countWords caption ≤ max settings.captionMaxWords (settings.captionMinWords + 7) := by
  split at h
  · rename_i hlt
    injection h with h1
    rw [← h1, countWords_append_filler]
    omega
  · split at h
    · injection h with h1
      rw [← h1, countWords_join_take]
      exact le_trans (min_le_left _ _) (le_max_left _ _)
    · rename_i hngt
      injection h with h1
      rw [← h1]
      exact le_trans (Nat.le_of_not_lt hngt) (le_max_left _ _)

theorem c8_caption_word_bound (env : Env) (settings : Settings) (entry : Entry)
    (product : Product) (caption : Str)
    (h : generate_caption env settings entry product = .ok caption) :
    countWords caption ≤ max settings.captionMaxWords (settings.captionMinWords + 7) := by
  unfold generate_caption at h
  dsimp only at h
  cases hrep : env.captionChat entry product with
  | error e => rw [hrep, except_bind_error] at h; exact Except.noConfusion h
  | ok reply =>
    rw [hrep, except_bind_ok] at h
    try dsimp only at h
    exact enforce_caption_bound settings _ caption h

/-- Witness for the amended C8 bound at a concrete caption run. -/
theorem c8_caption_word_bound_witness :
    countWords "hello This content is shared for educational purposes only.".toList ≤
      max ({} : Settings).captionMaxWords (({} : Settings).captionMinWords + 7) :=
  c8_caption_word_bound okEnv {} emptyEntry {}
    "hello This content is shared for educational purposes only.".toList (by decide)

/-- C8 counterexample: a short model reply yields a nine-word caption, below the
promised 100-word minimum — the enforcement step only appends one eight-word
filler sentence. -/
theorem c8_counterexample :
    generate_caption okEnv {} emptyEntry {} =
      .ok "hello This content is shared for educational purposes only.".toList ∧
    countWords "hello This content is shared for educational purposes only.".toList = 9 ∧
    ({} : Settings).captionMinWords = 100 :=
  ⟨by decide, by decide, by decide⟩

/-- C9: when the repeat-avoidance guard fires (matched product name among the
brand recent products), `_process_entry` returns without touching the store —
no article-check record, no log row — and `_schedule_for_brand` continues with
the remaining entries exactly as if the rejected entry had been dropped from
the list, so the entry stays eligible for a later run. -/
theorem c9_repeat_guard_no_record (env : Env) (settings : Settings) (db : DB)
    (entry : Entry) (products : List Product) (brand : Brand)
    (last_products : List Str) (rest : List Entry) (sched now : Time)
    (r1 : Str) (s : Score) (product : Product)
    (hsf : safety_filter env settings
      { entry with brandName := brand.brandName, brandTags := brand.tags } products
      = .ok (true, r1))
    (hsel : select_best_product env settings
      { entry with brandName := brand.brandName, brandTags := brand.tags } products
      settings.productMatchThreshold = .ok (some product, s))
    (hrep : settings.avoidRepeatProduct = true ∧ last_products ≠ [] ∧
      product.get "product_name".toList ∈ last_products)
    (hseen : article_seen db brand.brandName (entry.get "title".toList [])
      (entry.get "article_url".toList []) = false) :
    process_entry env settings db entry products brand last_products sched now =
      .ok (db, false, "repeat_product".toList) ∧
    schedule_for_brand env settings db brand last_products products (entry :: rest)
      sched now =
    schedule_for_brand env settings db brand last_products products rest sched now := by
  have h1 : process_entry env settings db entry products brand last_products sched now =
      .ok (db, false, "repeat_product".toList) := by
    unfold process_entry
    dsimp only
    rw [hsf, except_bind_ok]
    rw [if_neg (show ¬((!true) = true) by decide), except_bind_pure]
    rw [hsel, except_bind_ok]
    dsimp only
    rw [if_pos hrep]
    rfl
  refine ⟨h1, ?_⟩
  unfold schedule_for_brand
  dsimp only
  rw [hseen]
  rw [if_neg (show ¬(false = true) by decide)]
  rw [h1, except_bind_ok]
  dsimp only
  rw [if_pos rfl]
  conv_lhs => unfold schedule_for_brand

/-- Witness for C9: the guard fires on a concrete repeat and leaves the empty
store untouched while the scan proceeds to the rest of the list. -/
theorem c9_repeat_guard_no_record_witness :
    process_entry okEnv rerankOffSettings {} turmericEntry [turmericProduct] {}
      ["Turmeric Capsules".toList] 0 0 = .ok ({}, false, "repeat_product".toList) ∧
    schedule_for_brand okEnv rerankOffSettings {} {} ["Turmeric Capsules".toList]
      [turmericProduct] [turmericEntry] 0 0 =
    schedule_for_brand okEnv rerankOffSettings {} {} ["Turmeric Capsules".toList]
      [turmericProduct] [] 0 0 :=
  c9_repeat_guard_no_record okEnv rerankOffSettings {} turmericEntry [turmericProduct]
    {} ["Turmeric Capsules".toList] [] 0 0 [] ⟨⟨3, 1⟩, 1⟩ turmericProduct
    (by decide) (by decide) (by decide) (by decide)

/-- C1: the spec says a recorded (brand, title, url) triple is skipped on the next
scan with no classifier work.  The code looks the seen-check up under the key
`article_url`, which RSS entries do not carry, so the lookup key is always the
empty string and the recorded entry is re-processed: with the hard-block
classifier unavailable the scan aborts, proving `safety_filter` ran again. -/
theorem c1_seen_entry_rescanned :
    article_seen c1Db c1Brand.brandName (c1Entry.get "title".toList [])
      (c1Entry.get "url".toList []) = true ∧
    c1Entry.get "article_url".toList [] = [] ∧
    schedule_for_brand c1Env keyedSettings c1Db c1Brand [] [] [c1Entry] 0 0 =
      .error "boom".toList :=
  ⟨by decide, by decide, by decide⟩

/-- C10: an empty brand name or article title makes `record_article_check` a
no-op and `article_seen` answer `false`; consequently `run_daily` preserves the
invariant that no article-history row has an empty brand name or title, and an
empty-titled entry is never treated as seen. -/
theorem c10_empty_key_guard :
    (∀ (db : DB) (b t u st rs : Str) (at' : Time), b = [] ∨ t = [] →
      record_article_check db b t u st rs at' = db ∧ article_seen db b t u = false) ∧
    (∀ (env : Env) (settings : Settings) (db db' : DB),
      run_daily env settings db = .ok db' → articleInv db → articleInv db') := by
  constructor
  · intro db b t u st rs at' h
    constructor
    · unfold record_article_check
      rw [if_pos h]
    · unfold article_seen
      rw [if_pos h]
  · intro env settings db db' hrun hinv
    exact run_daily_articleInv env settings db db' hrun hinv

/-- Witness for C10 at an empty title, plus invariant preservation across a
concrete `run_daily`. -/
theorem c10_empty_key_guard_witness :
    (record_article_check c1Db "B".toList [] "u".toList "s".toList "r".toList 0 = c1Db ∧
      article_seen c1Db "B".toList [] "u".toList = false) ∧
    articleInv c10Result :=
  ⟨c10_empty_key_guard.1 c1Db "B".toList [] "u".toList "s".toList "r".toList 0
      (Or.inr rfl),
    c10_empty_key_guard.2 okEnv {} c1Db c10Result (by decide) (by decide)⟩

/-- C4: when the brand has no posted record in today's local window, every
post-log row a successful `run_brand` appends carries the target slot — today's
configured hour, bumped to `now` when that slot has passed — as its scheduled
time, and its status is `posted` exactly when that target is at or before
`now`. -/
theorem c4_target_and_status (env : Env) (settings : Settings) (db : DB)
    (brand : Brand) (db' : DB)
    (hnp : has_posted_today db brand.brandName (day_bounds env.now).1
      (day_bounds env.now).2 = false)
    (hrun : run_brand env settings db brand = .ok db') :
    todayTarget settings env.now =
      (if schedule_time_for_day settings (day_bounds env.now).1 ≤ env.now then env.now
       else schedule_time_for_day settings (day_bounds env.now).1) ∧
    ∃ extra, db'.postLog = db.postLog ++ extra ∧ ∀ rec ∈ extra,
      rec.scheduledTime = some (todayTarget settings env.now) ∧
      ((rec.status = "posted".toList ∨ rec.status = "scheduled".toList) →
        (rec.status = "posted".toList ↔ todayTarget settings env.now ≤ env.now)) :=
  ⟨rfl, run_brand_not_posted_today_postlog env settings db brand db' hnp hrun⟩

/-- Witness for C4: a concrete successful run at 08:00 with a 05:00 slot. -/
theorem c4_target_and_status_witness :
    todayTarget c4Settings c4Env.now =
      (if schedule_time_for_day c4Settings (day_bounds c4Env.now).1 ≤ c4Env.now
       then c4Env.now
       else schedule_time_for_day c4Settings (day_bounds c4Env.now).1) ∧
    ∃ extra, c4Result.postLog = ({} : DB).postLog ++ extra ∧ ∀ rec ∈ extra,
      rec.scheduledTime = some (todayTarget c4Settings c4Env.now) ∧
      ((rec.status = "posted".toList ∨ rec.status = "scheduled".toList) →
        (rec.status = "posted".toList ↔ todayTarget c4Settings c4Env.now ≤ c4Env.now)) :=
  c4_target_and_status c4Env c4Settings {} c4Brand c4Result (by decide) (by decide)

/-- Witness for C5: the already-covered brand leaves the store untouched even
when every outbound scan collaborator would raise. -/
theorem c5_already_scheduled_noop_witness :
    (run_brand c4Env c4Settings c5Db c4Brand).toOption.map DB.postLog =
      some c5Db.postLog ∧
    (run_brand c4Env c4Settings c5Db c4Brand).toOption.map DB.articleHistory =
      some c5Db.articleHistory ∧
    run_brand c5RaisingEnv c4Settings c5Db c4Brand =
      run_brand c4Env c4Settings c5Db c4Brand :=
  c5_already_scheduled_noop c4Env c5RaisingEnv c4Settings c5Db c4Brand
    rfl rfl rfl rfl (by decide) (by decide)

/-- C2 counterexample: a transient classifier fault while the first brand's
first entry is safety-checked is not caught anywhere — `run_daily` aborts with
the raise, the outcome is never recorded, and the second brand is never
processed. -/
theorem c2_counterexample :
    c2Env.loadBrands keyedSettings.brandsCsvPath = [c4Brand, c2Brand2] ∧
    run_daily c2Env keyedSettings {} = .error "boom".toList :=
  ⟨rfl, by decide⟩

theorem ai_rerank_none_ok (env : Env) (settings : Settings)
    (hrc : ∀ e c, env.rerankChat e c = .ok "CHOICE=NONE".toList) :
    ∀ e c, ∃ v, ai_rerank env settings e c = .ok v := by
  intro e c
  unfold ai_rerank
  dsimp only
  refine exists_ok_ite _ _ _ ⟨_, rfl⟩ ?_
  rw [hrc e c, except_bind_ok]
  exact ⟨_, rfl⟩

/-- C2 amended: only the posting request is guarded.  A `create_post` fault is
caught at the point of use — `_process_entry` returns normally with the fault
description as reason and appends a `failed` post-log row — and when the
unguarded collaborators (classifiers, re-ranker, caption model) answer, no
fault of the posting client can abort a brand or the run. -/
theorem c2_fault_containment (env : Env) (settings : Settings) (db dbA : DB)
    (entry : Entry) (products : List Product) (brand : Brand)
    (last_products : List Str) (sched now : Time) (r1 caption exc : Str)
    (s : Score) (product : Product)
    (hh : ∀ t, ∃ v, env.hardblockChat t = .ok v)
    (hr : ∀ t ps, ∃ v, env.relevanceChat t ps = .ok v)
    (hai : ∀ e c, ∃ v, ai_rerank env settings e c = .ok v)
    (hc : ∀ e p, ∃ v, env.captionChat e p = .ok v)
    (hsf : safety_filter env settings
      { entry with brandName := brand.brandName, brandTags := brand.tags } products
      = .ok (true, r1))
    (hsel : select_best_product env settings
      { entry with brandName := brand.brandName, brandTags := brand.tags } products
      settings.productMatchThreshold = .ok (some product, s))
    (hrep : ¬(settings.avoidRepeatProduct = true ∧ last_products ≠ [] ∧
      product.get "product_name".toList ∈ last_products))
    (hcap : generate_caption env settings
      { entry with brandName := brand.brandName, brandTags := brand.tags } product
      = .ok caption)
    (himg : product.get "product_image_url".toList ≠ [])
    (hkey : settings.postlyApiKey ≠ [])
    (hplat : brand.targetPlatforms ≠ [])
    (hws : (if brand.workspaceIds ≠ [] then brand.workspaceIds
      else settings.postlyWorkspaceIds) ≠ [])
    (hpost : env.createPost settings.postlyBaseUrl settings.postlyApiKey caption
      (product.get "product_image_url".toList) sched brand.targetPlatforms
      (if brand.workspaceIds ≠ [] then brand.workspaceIds
        else settings.postlyWorkspaceIds) = .error exc) :
    (∃ db', process_entry env settings dbA entry products brand last_products
        sched now = .ok (db', false, exc) ∧
      db'.postLog = dbA.postLog ++
        [⟨brand.brandName, product.get "product_name".toList,
          ({ entry with brandName := brand.brandName, brandTags := brand.tags } : Entry).get "title".toList [],
          ({ entry with brandName := brand.brandName, brandTags := brand.tags } : Entry).get "url".toList [],
          product.get "product_image_url".toList, caption, some sched, none,
          "failed".toList⟩]) ∧
    ∃ v, run_daily env settings db = .ok v := by
  have h1 : process_entry env settings dbA entry products brand last_products
      sched now = .ok
      (record_article_check
        (log_scheduled_post
          (log_and_continue env dbA
            { entry with brandName := brand.brandName, brandTags := brand.tags }
            (some product) caption "failed".toList exc)
          ⟨brand.brandName, product.get "product_name".toList,
            ({ entry with brandName := brand.brandName, brandTags := brand.tags } : Entry).get "title".toList [],
            ({ entry with brandName := brand.brandName, brandTags := brand.tags } : Entry).get "url".toList [],
            product.get "product_image_url".toList, caption, some sched, none,
            "failed".toList⟩)
        brand.brandName
        (({ entry with brandName := brand.brandName, brandTags := brand.tags } : Entry).get "title".toList [])
        (({ entry with brandName := brand.brandName, brandTags := brand.tags } : Entry).get "url".toList [])
        "failed".toList exc env.utcNow, false, exc) := by
    unfold process_entry
    dsimp only
    rw [hsf, except_bind_ok]
    rw [if_neg (show ¬((!true) = true) by decide), except_bind_pure]
    rw [hsel, except_bind_ok]
    dsimp only
    rw [if_neg hrep]
    rw [hcap, except_bind_ok]
    try dsimp only
    repeat rw [except_bind_pure]
    rw [if_neg himg, if_neg hkey, if_neg hplat, if_neg hws, hpost]
    rfl
  refine ⟨⟨_, h1, ?_⟩, run_daily_ok env settings db hh hr hai hc⟩
  rw [postLog_record_article_check]
  simp only [log_scheduled_post, postLog_log_and_continue]

/-- Witness for the amended C2: a failing posting client is absorbed — the
entry outcome is a `failed` post-log row carrying the fault text, and the full
daily run still returns normally. -/
theorem c2_fault_containment_witness :
    (∃ db', process_entry c2pfEnv c4Settings {} turmericEntry [c4Product] c4Brand
        [] 0 0 = .ok (db', false, "postboom".toList) ∧
      db'.postLog = ({} : DB).postLog ++
        [⟨c4Brand.brandName, c4Product.get "product_name".toList,
          ({ turmericEntry with brandName := c4Brand.brandName, brandTags := c4Brand.tags } : Entry).get "title".toList [],
          ({ turmericEntry with brandName := c4Brand.brandName, brandTags := c4Brand.tags } : Entry).get "url".toList [],
          c4Product.get "product_image_url".toList, c2Caption, some 0, none,
          "failed".toList⟩]) ∧
    ∃ v, run_daily c2pfEnv c4Settings {} = .ok v :=
  c2_fault_containment c2pfEnv c4Settings {} {} turmericEntry [c4Product] c4Brand
    [] 0 0 [] c2Caption "postboom".toList ⟨⟨3, 1⟩, 1⟩ c4Product
    (fun _ => ⟨_, rfl⟩) (fun _ _ => ⟨_, rfl⟩)
    (ai_rerank_none_ok c2pfEnv c4Settings (fun _ _ => rfl))
    (fun _ _ => ⟨_, rfl⟩)
    (by decide) (by decide) (by decide) (by decide)
    (by decide) (by decide) (by decide) (by decide) (by decide)

end HealthNews
